import Mathlib

/-!
# Verification of the HekmatMind neural growth engine

Shallow embedding of `src/hekmat_mind/src/neural/growth/` (axon.rs, types.rs,
dendritic_growth.rs) and proofs about it.

Modelling conventions:

* `f32` values are modelled as `ℚ`.  All arithmetic that is `+ - * / min max
  clamp abs floor` in the source is exact rational arithmetic here.
* Transcendental `f32` operations (`sqrt`, `powf`, `exp`, `sin`, `cos`,
  `log2`) and the draws of `rand::StdRng` are not re-implemented bit for bit;
  they are fields of an explicit `Env` parameter.  `StdRng::seed_from_u64 s`
  followed by the n-th `gen_range(0.0..1.0)` draw is `Env.stream s n`, and a
  first `gen_range(0..b)` draw is `Env.streamIdx s b`.  Theorems hold for
  every `Env`, i.e. for every choice of those functions, which in particular
  covers the real ones.
* `u64` values are `Nat` reduced modulo `2 ^ 64` where the source wraps;
  `f32 as u64` casts saturate exactly as in Rust.
* `Uuid::new_v4()` identifiers are modelled by a per-tree fresh-id counter
  (`next_id`).  The identifiers themselves are opaque to every algorithm.
* Rust's `HashMap` is modelled as an insertion-ordered association list.
  The order in which `HashMap::values()` enumerates entries is *not*
  insertion order in Rust - it depends on the randomly generated `Uuid` keys
  and on the map's per-instance hasher state, neither of which is derived
  from the tree's `rng_seed`.  This instance-specific enumeration order is
  modelled by a per-tree field `perm` fixed at construction time; iteration
  points that feed indexed random choice apply `perm` first.
-/

/-- `2 ^ 64`, the modulus of `u64` arithmetic. -/
def u64size : Nat := 2 ^ 64

/-- `u64::wrapping_add`. -/
def wrapAdd (a b : Nat) : Nat := (a + b) % u64size

/-- Truncation toward zero, as in Rust's float-to-int casts and `%`. -/
def qtrunc (q : ℚ) : ℤ := if 0 ≤ q then Rat.floor q else -Rat.floor (-q)

/-- Rust `f32 as u64`: saturating cast, truncation toward zero. -/
def castU64 (q : ℚ) : Nat :=
  if q < 0 then 0
  else
    let n := (Rat.floor q).toNat
    if n ≤ u64size - 1 then n else u64size - 1

/-- Rust `f32::min` (written so that it computes by kernel reduction). -/
def ratMin (x y : ℚ) : ℚ := if x ≤ y then x else y

/-- Rust `f32::max`. -/
def ratMax (x y : ℚ) : ℚ := if x ≤ y then y else x

/-- Rust `f32::clamp`. -/
def ratClamp (x lo hi : ℚ) : ℚ := if x < lo then lo else if hi < x then hi else x

/-- Rust `%` on floats: `x - y * trunc (x / y)`. -/
def ratFmod (x y : ℚ) : ℚ := x - y * (qtrunc (x / y) : ℚ)

/-- The `f32` value of `std::f32::consts::PI` (bit pattern `0x40490FDB`). -/
def piF32 : ℚ := 13176795 / 4194304

/-- The non-rational `f32` operations and the `StdRng` draws used by the
growth engine, kept abstract.  `stream s n` is the n-th `gen_range(0.0..1.0)`
draw of `StdRng::seed_from_u64 s`; `streamIdx s b` is a first
`gen_range(0..b)` draw of such a generator. -/
structure Env where
  sqrt : ℚ → ℚ
  powf : ℚ → ℚ → ℚ
  exp : ℚ → ℚ
  sin : ℚ → ℚ
  cos : ℚ → ℚ
  log2 : ℚ → ℚ
  stream : Nat → Nat → ℚ
  streamIdx : Nat → Nat → Nat

/-- `types.rs`: a 3-D position. -/
structure Position where
  x : ℚ
  y : ℚ
  z : ℚ
deriving DecidableEq

namespace Position

/-- `Position::new`. -/
def new (x y z : ℚ) : Position := ⟨x, y, z⟩

/-- `Position::distance_to`. -/
def distance_to (env : Env) (p other : Position) : ℚ :=
  let dx := p.x - other.x
  let dy := p.y - other.y
  let dz := p.z - other.z
  env.sqrt (dx * dx + dy * dy + dz * dz)

end Position

/-- A mutable 3-vector (`[f32; 3]` in the source). -/
structure V3 where
  x : ℚ
  y : ℚ
  z : ℚ
deriving DecidableEq

-- constants of `axon.rs`
namespace axonC

def BASE_GROWTH_RATE : ℚ := 10
def MAX_FACTOR_INFLUENCE : ℚ := 5
def ENERGY_PER_GROWTH_UNIT : ℚ := 1
def MIN_ENERGY_THRESHOLD : ℚ := 5

end axonC

/-- `axon.rs`: kind of a growth factor. -/
inductive FactorType where
  | Attractive
  | Repulsive
  | Obstacle
deriving DecidableEq

/-- `axon.rs`: a chemical or physical growth factor. -/
structure GrowthFactor where
  position : Position
  strength : ℚ
  radius : ℚ
  factor_type : FactorType
deriving DecidableEq

namespace GrowthFactor

/-- `GrowthFactor::new`: clamps strength to `[0, 1]`, radius to `≥ 0.1`. -/
def new (position : Position) (strength radius : ℚ) (factor_type : FactorType) :
    GrowthFactor :=
  { position := position
    strength := ratClamp strength 0 1
    radius := ratMax radius 0.1
    factor_type := factor_type }

/-- `GrowthFactor::influence_at`. -/
def influence_at (env : Env) (f : GrowthFactor) (position : Position) : ℚ :=
  let distance := f.position.distance_to env position
  if distance > f.radius then 0
  else
    let relative_distance := distance / f.radius
    let base_influence := f.strength * (1 - relative_distance)
    match f.factor_type with
    | .Attractive => base_influence
    | .Repulsive => -base_influence
    | .Obstacle =>
        if distance < f.radius * 0.5 then -2 else -base_influence * 1.5

end GrowthFactor

/-- `axon.rs`: one recorded growth measurement. -/
structure GrowthMeasurement where
  time : ℚ
  length : ℚ
  growth_rate : ℚ
  branches : Nat
deriving DecidableEq

/-- `axon.rs`: the axon growth cone state. -/
structure AxonGrowth where
  position : Position
  origin : Position
  direction : V3
  energy : ℚ
  segments : List Position
  length : ℚ
  measurements : List GrowthMeasurement
  time : ℚ
deriving DecidableEq

namespace AxonGrowth

/-- `AxonGrowth::new`. -/
def new (position : Position) (initial_energy : ℚ) : AxonGrowth :=
  { position := position
    origin := position
    direction := ⟨1, 0, 0⟩
    energy := initial_energy
    segments := [position]
    length := 0
    measurements := []
    time := 0 }

/-- `AxonGrowth::can_grow`. -/
def can_grow (a : AxonGrowth) : Prop := a.energy ≥ axonC.MIN_ENERGY_THRESHOLD

instance (a : AxonGrowth) : Decidable a.can_grow := by
  unfold can_grow; infer_instance

/-- The influence-accumulation and direction-update phase of
`AxonGrowth::grow` (source lines 176-253): returns the total influence and
the new direction.  In the source this phase mutates `self.direction` in
place *before* the energy-sufficiency check. -/
def plan (env : Env) (a : AxonGrowth) (factors : List GrowthFactor) : ℚ × V3 :=
  -- deterministic pseudo-random deflection for every third recorded segment
  let dc0 : V3 :=
    if a.segments.length % 3 = 0 then
      let noise_angle := ratFmod (a.time * 7) (2 * piF32)
      ⟨0, env.sin noise_angle * 0.05, env.cos noise_angle * 0.05⟩
    else ⟨0, 0, 0⟩
  let acc := factors.foldl
    (fun (acc : ℚ × V3) factor =>
      let influence := factor.influence_at env a.position
      let total := acc.1 + influence
      let dc := acc.2
      if influence ≠ 0 then
        let dx := factor.position.x - a.position.x
        let dy := factor.position.y - a.position.y
        let dz := factor.position.z - a.position.z
        let distance := env.sqrt (dx * dx + dy * dy + dz * dz)
        if distance > 0.001 then
          let ni := influence / distance
          if factor.factor_type = FactorType.Obstacle ∧ distance < factor.radius then
            (total, ⟨dc.x + -dx * ni * 0.5, dc.y + dz * |ni| * 2, dc.z + -dy * |ni| * 2⟩)
          else
            (total, ⟨dc.x + dx * ni, dc.y + dy * ni, dc.z + dz * ni⟩)
        else (total, dc)
      else (total, dc))
    ((0 : ℚ), dc0)
  let total := acc.1
  let dc := acc.2
  let direction :=
    if |total| > 0 ∨ dc.y ≠ 0 ∨ dc.z ≠ 0 then
      let mag := env.sqrt (dc.x * dc.x + dc.y * dc.y + dc.z * dc.z)
      if mag > 0.001 then
        let d : V3 := ⟨0.7 * a.direction.x + 0.3 * (dc.x / mag),
                       0.7 * a.direction.y + 0.3 * (dc.y / mag),
                       0.7 * a.direction.z + 0.3 * (dc.z / mag)⟩
        let new_mag := env.sqrt (d.x * d.x + d.y * d.y + d.z * d.z)
        if new_mag > 0.001 then ⟨d.x / new_mag, d.y / new_mag, d.z / new_mag⟩ else d
      else a.direction
    else a.direction
  (total, direction)

/-- The growth-rate of one `AxonGrowth::grow` step:
`BASE_GROWTH_RATE * (1 + clamp (total_influence / MAX_FACTOR_INFLUENCE))`. -/
def growthRate (env : Env) (a : AxonGrowth) (factors : List GrowthFactor) : ℚ :=
  axonC.BASE_GROWTH_RATE *
    (1 + ratClamp ((plan env a factors).1 / axonC.MAX_FACTOR_INFLUENCE) (-0.5) 0.5)

/-- The distance an `AxonGrowth::grow` step would cover. -/
def growthAmount (env : Env) (a : AxonGrowth) (factors : List GrowthFactor)
    (time_step : ℚ) : ℚ :=
  growthRate env a factors * time_step

/-- The energy an `AxonGrowth::grow` step would cost. -/
def energyCost (env : Env) (a : AxonGrowth) (factors : List GrowthFactor)
    (time_step : ℚ) : ℚ :=
  growthAmount env a factors time_step * axonC.ENERGY_PER_GROWTH_UNIT

/-- The state update of the main path of `AxonGrowth::grow` (direction
already updated in `a1`). -/
def growCommit (env : Env) (a : AxonGrowth) (factors : List GrowthFactor)
    (time_step : ℚ) (a1 : AxonGrowth) : AxonGrowth :=
  let growth_amount := growthAmount env a factors time_step
  let pos : Position := ⟨a1.position.x + a1.direction.x * growth_amount,
                         a1.position.y + a1.direction.y * growth_amount,
                         a1.position.z + a1.direction.z * growth_amount⟩
  let length := a1.length + growth_amount
  let time := a1.time + time_step
  let ms := a1.measurements
  let ms :=
    if ms.isEmpty ∨ time - (ms.getLastD ⟨0, 0, 0, 0⟩).time ≥ 0.5 then
      let pushed := ms ++ [⟨time, length, growthRate env a factors, 0⟩]
      if pushed.length > 100 then pushed.drop 1 else pushed
    else ms
  { a1 with
    energy := a1.energy - energyCost env a factors time_step
    position := pos
    segments := a1.segments ++ [pos]
    length := length
    time := time
    measurements := ms }

/-- `AxonGrowth::grow`: returns the distance grown and the new state. -/
def grow (env : Env) (a : AxonGrowth) (factors : List GrowthFactor)
    (time_step : ℚ) : ℚ × AxonGrowth :=
  if ¬ a.can_grow then (0, a)
  else
    let a1 : AxonGrowth := { a with direction := (plan env a factors).2 }
    if a1.energy < energyCost env a factors time_step then (0, a1)
    else (growthAmount env a factors time_step, growCommit env a factors time_step a1)

/-- `AxonGrowth::add_energy`. -/
def add_energy (a : AxonGrowth) (amount : ℚ) : AxonGrowth :=
  { a with energy := a.energy + amount }

end AxonGrowth

-- constants of `dendritic_growth.rs`
namespace dendC

def BASE_GROWTH_RATE : ℚ := 5
def ENERGY_PER_GROWTH_UNIT : ℚ := 1.2
def MIN_ENERGY_THRESHOLD : ℚ := 3
def BASE_BRANCHING_PROBABILITY : ℚ := 0.1
def MAX_BRANCHING_DEPTH : Nat := 6
def MIN_SYNAPSE_ACTIVITY : ℚ := 0.05
def INACTIVITY_THRESHOLD_DAYS : ℚ := 3
def OPTIMAL_CONNECTION_COUNT : Nat := 20
def ELECTROTONIC_DECAY_LAMBDA : ℚ := 0.5
def MAX_ELECTROTONIC_LENGTH : ℚ := 1.2

end dendC

/-- `dendritic_growth.rs`: state of a synapse. -/
inductive SynapseState where
  | Active
  | Weakened
  | Ghost
deriving DecidableEq

/-- `dendritic_growth.rs`: a synapse on a dendritic segment.  `Uuid`
identifiers are modelled as `Nat` (see the header comment). -/
structure Synapse where
  id : Nat
  source_neuron_id : Nat
  weight : ℚ
  position : Position
  electrotonic_distance : ℚ
  state : SynapseState
  activity_history : List ℚ
  last_active : ℚ
  plasticity : ℚ
deriving DecidableEq

namespace Synapse

/-- `Synapse::new` (the fresh `Uuid` is the explicit `id` argument). -/
def new (id source_neuron_id : Nat) (position : Position)
    (electrotonic_distance : ℚ) : Synapse :=
  { id := id
    source_neuron_id := source_neuron_id
    weight := 0.1
    position := position
    electrotonic_distance := ratMin electrotonic_distance dendC.MAX_ELECTROTONIC_LENGTH
    state := .Active
    activity_history := []
    last_active := 0
    plasticity := 0.01 }

/-- `Synapse::with_params`. -/
def with_params (id source_neuron_id : Nat) (position : Position)
    (electrotonic_distance initial_weight plasticity : ℚ) : Synapse :=
  { id := id
    source_neuron_id := source_neuron_id
    weight := ratClamp initial_weight 0 1
    position := position
    electrotonic_distance := ratMin electrotonic_distance dendC.MAX_ELECTROTONIC_LENGTH
    state := .Active
    activity_history := []
    last_active := 0
    plasticity := plasticity }

/-- `Synapse::update_activity`. -/
def update_activity (s : Synapse) (current_time activity_level : ℚ) : Synapse :=
  let h := s.activity_history ++ [activity_level]
  let h := if h.length > 10 then h.drop 1 else h
  if activity_level > dendC.MIN_SYNAPSE_ACTIVITY then
    { s with
      activity_history := h
      last_active := current_time
      state := if s.state = .Weakened then .Active else s.state }
  else { s with activity_history := h }

/-- `Synapse::average_activity`. -/
def average_activity (s : Synapse) : ℚ :=
  if s.activity_history.isEmpty then 0
  else s.activity_history.sum / (s.activity_history.length : ℚ)

/-- `Synapse::check_inactivity`: returns the weakening flag and the state. -/
def check_inactivity (s : Synapse) (current_time : ℚ) : Bool × Synapse :=
  if current_time - s.last_active > dendC.INACTIVITY_THRESHOLD_DAYS then
    (true, { s with state := .Weakened })
  else (false, s)

/-- `Synapse::convert_to_ghost`. -/
def convert_to_ghost (s : Synapse) : Synapse :=
  if s.state = .Weakened then
    { s with state := .Ghost, weight := s.weight * 0.1 }
  else s

/-- `Synapse::strengthen`. -/
def strengthen (env : Env) (s : Synapse) (activity_strength : ℚ) : Synapse :=
  let delta := s.plasticity * activity_strength * env.powf (1 - s.weight) 0.8
  { s with weight := ratMin (s.weight + delta) 1 }

/-- `Synapse::weaken`. -/
def weaken (env : Env) (s : Synapse) (amount : ℚ) : Synapse :=
  let delta := s.plasticity * amount * env.powf s.weight 0.8
  let w := s.weight - delta
  if w < 0.01 then { s with weight := 0.01, state := .Weakened }
  else { s with weight := w }

/-- `Synapse::effective_strength`. -/
def effective_strength (env : Env) (s : Synapse) : ℚ :=
  if s.state ≠ .Active then 0
  else
    let decay_factor := env.exp (-s.electrotonic_distance / dendC.ELECTROTONIC_DECAY_LAMBDA)
    s.weight * decay_factor

end Synapse

/-- `dendritic_growth.rs`: electrical cable properties. -/
structure CableProperties where
  axial_resistance : ℚ
  membrane_resistance : ℚ
  membrane_capacitance : ℚ
deriving DecidableEq

/-- `CableProperties::default`. -/
def CableProperties.default : CableProperties :=
  { axial_resistance := 100
    membrane_resistance := 10000
    membrane_capacitance := 1 }

/-- `dendritic_growth.rs`: a dendritic segment. -/
structure DendriticSegment where
  id : Nat
  position : Position
  length : ℚ
  diameter : ℚ
  branch_depth : Nat
  synapses : List Synapse
  parent_id : Option Nat
  child_ids : List Nat
  cable_properties : CableProperties
deriving DecidableEq

namespace DendriticSegment

/-- `DendriticSegment::new` (the fresh `Uuid` is the explicit `id`
argument; `diameter = 2 * 0.8 ^ branch_depth` via `f32::powf`). -/
def new (env : Env) (id : Nat) (position : Position) (length : ℚ)
    (branch_depth : Nat) (parent_id : Option Nat) : DendriticSegment :=
  { id := id
    position := position
    length := length
    diameter := 2 * env.powf 0.8 (branch_depth : ℚ)
    branch_depth := branch_depth
    synapses := []
    parent_id := parent_id
    child_ids := []
    cable_properties := CableProperties.default }

/-- `DendriticSegment::add_synapse` (fresh `Uuid` passed as `syn_id`). -/
def add_synapse (seg : DendriticSegment) (syn_id source_neuron_id : Nat)
    (position : Position) (electrotonic_distance : ℚ) : DendriticSegment :=
  { seg with synapses := seg.synapses ++ [Synapse.new syn_id source_neuron_id position electrotonic_distance] }

/-- `DendriticSegment::add_child`. -/
def add_child (seg : DendriticSegment) (child_id : Nat) : DendriticSegment :=
  { seg with child_ids := seg.child_ids ++ [child_id] }

/-- `DendriticSegment::prune_synapses`: first pass weakens inactive
synapses (counting them), second pass ghosts weakened low-activity ones. -/
def prune_synapses (seg : DendriticSegment) (current_time : ℚ) :
    DendriticSegment × Nat :=
  let step1 := seg.synapses.map (fun s => s.check_inactivity current_time)
  let pruned_count := (step1.filter (fun r => r.1 = true)).length
  let syn1 := step1.map (fun r => r.2)
  let syn2 := syn1.map (fun s =>
    if s.state = .Weakened ∧ s.average_activity < dendC.MIN_SYNAPSE_ACTIVITY / 2 then
      s.convert_to_ghost
    else s)
  ({ seg with synapses := syn2 }, pruned_count)

/-- `DendriticSegment::update_synapse_activity`. -/
def update_synapse_activity (seg : DendriticSegment) (active_inputs : List Nat)
    (current_time : ℚ) : DendriticSegment :=
  { seg with synapses := seg.synapses.map (fun s =>
      s.update_activity current_time (if s.source_neuron_id ∈ active_inputs then 1 else 0)) }

/-- `DendriticSegment::compete_synapses`. -/
def compete_synapses (env : Env) (seg : DendriticSegment) : DendriticSegment :=
  if seg.synapses.length ≤ 1 then seg
  else
    let avg_activity := (seg.synapses.map Synapse.average_activity).sum /
      (seg.synapses.length : ℚ)
    { seg with synapses := seg.synapses.map (fun s =>
        let activity := s.average_activity
        if activity > avg_activity then s.strengthen env 0.01
        else if activity < avg_activity * 0.5 then s.weaken env 0.02
        else s) }

/-- `DendriticSegment::calculate_electrotonic_length`. -/
def calculate_electrotonic_length (env : Env) (seg : DendriticSegment) : ℚ :=
  let rm := seg.cable_properties.membrane_resistance
  let ra := seg.cable_properties.axial_resistance
  let lambda := env.sqrt (0.5 * seg.diameter * rm / ra)
  seg.length / lambda

/-- `DendriticSegment::maintenance_cost` (`powi(2)` is exact squaring). -/
def maintenance_cost (seg : DendriticSegment) : ℚ :=
  let segment_volume := piF32 * ((seg.diameter / 2) * (seg.diameter / 2)) * seg.length
  let segment_cost := segment_volume * 0.01
  let synapse_cost :=
    ((seg.synapses.filter (fun s => s.state = .Active)).length : ℚ) * 0.1
  segment_cost + synapse_cost

end DendriticSegment

/-- Lookup in an insertion-ordered association list (models `HashMap::get`). -/
def lookupId {α : Type} (l : List (Nat × α)) (k : Nat) : Option α :=
  match l with
  | [] => none
  | (i, s) :: r => if i = k then some s else lookupId r k

/-- Pointwise update of one key (models `HashMap::get_mut` mutation). -/
def updateId {α : Type} : List (Nat × α) → Nat → (α → α) → List (Nat × α)
  | [], _, _ => []
  | (i, s) :: r, k, f => (i, if i = k then f s else s) :: updateId r k f

/-- `dendritic_growth.rs`: the dendritic tree.  `segments` and
`path_length_cache` model the two `HashMap`s as insertion-ordered
association lists; `next_id` models the `Uuid::new_v4()` supply; `perm`
models the instance-specific `HashMap::values()` enumeration order (see the
header comment). -/
structure DendriticTree where
  neuron_id : Nat
  segments : List (Nat × DendriticSegment)
  root_segment_ids : List Nat
  energy : ℚ
  growth_rate_modifier : ℚ
  electrotonic_length : ℚ
  time : ℚ
  connection_count : Nat
  rng_seed : Nat
  path_length_cache : List (Nat × ℚ)
  tree_signature : Nat
  next_id : Nat
  perm : List Nat → List Nat

namespace DendriticTree

/-- `DendriticTree::new`.  `perm` is the enumeration order the instance's
hash map happens to have; it is an arbitrary input fixed at construction,
not derived from any seed. -/
def new (neuron_id : Nat) (initial_energy : ℚ) (perm : List Nat → List Nat) :
    DendriticTree :=
  { neuron_id := neuron_id
    segments := []
    root_segment_ids := []
    energy := initial_energy
    growth_rate_modifier := 1
    electrotonic_length := 0.8
    time := 0
    connection_count := 0
    rng_seed := 42
    path_length_cache := []
    tree_signature := 0
    next_id := 0
    perm := perm }

/-- `DendriticTree::with_seed`. -/
def with_seed (neuron_id : Nat) (initial_energy : ℚ) (seed : Nat)
    (perm : List Nat → List Nat) : DendriticTree :=
  { new neuron_id initial_energy perm with rng_seed := seed }

/-- `DendriticTree::invalidate_cache`. -/
def invalidate_cache (t : DendriticTree) : DendriticTree :=
  { t with path_length_cache := [], tree_signature := wrapAdd t.tree_signature 1 }

/-- One iteration of the `initialize` loop: creates the `i`-th primary
root segment at its angle around the origin. -/
def initStep (env : Env) (initial_count : Nat) (t : DendriticTree) (i : Nat) :
    DendriticTree :=
  let origin : Position := ⟨0, 0, 0⟩
  let angle := ((i : ℚ) / (initial_count : ℚ)) * 2 * piF32
  let pos : Position := ⟨origin.x + env.cos angle * 5,
                         origin.y + env.sin angle * 5,
                         origin.z + ((i % 2 : ℕ) : ℚ) * 2⟩
  let segment := DendriticSegment.new env t.next_id pos 10 0 none
  { t with
    segments := t.segments ++ [(segment.id, segment)]
    root_segment_ids := t.root_segment_ids ++ [segment.id]
    next_id := t.next_id + 1 }

/-- `DendriticTree::initialize`: creates `initial_count` primary root
segments and clears the cache. -/
def initTree (env : Env) (t : DendriticTree) (initial_count : Nat) :
    DendriticTree :=
  ((List.range initial_count).foldl (initStep env initial_count) t).invalidate_cache

/-- `DendriticTree::maintenance_cost`. -/
def maintenance_cost (t : DendriticTree) : ℚ :=
  (t.segments.map (fun e => e.2.maintenance_cost)).sum

/-- `DendriticTree::calculate_growth_direction`. -/
def calculate_growth_direction (env : Env) (position : Position)
    (factors : List GrowthFactor) : V3 :=
  let direction := factors.foldl
    (fun (d : V3) factor =>
      let influence := factor.influence_at env position
      if influence ≠ 0 then
        let dx := factor.position.x - position.x
        let dy := factor.position.y - position.y
        let dz := factor.position.z - position.z
        let distance := env.sqrt (dx * dx + dy * dy + dz * dz)
        if distance > 0.001 then
          let ni := influence / distance
          ⟨d.x + dx * ni, d.y + dy * ni, d.z + dz * ni⟩
        else d
      else d)
    ⟨0, 0, 0⟩
  let mag := env.sqrt (direction.x * direction.x + direction.y * direction.y +
    direction.z * direction.z)
  if mag > 0.001 then ⟨direction.x / mag, direction.y / mag, direction.z / mag⟩
  else direction

/-- The seed `rng_seed.wrapping_add(time as u64 * 1000)` used both by the
branching gate in `grow` and by `add_direction_noise`. -/
def gateSeed (t : DendriticTree) : Nat :=
  wrapAdd t.rng_seed (castU64 t.time * 1000 % u64size)

/-- The seed `rng_seed.wrapping_add((time * 100.0) as u64)` used by
`select_growth_segment`. -/
def selSeed (t : DendriticTree) : Nat :=
  wrapAdd t.rng_seed (castU64 (t.time * 100))

/-- `DendriticTree::add_direction_noise` (pure form: the three
`gen_range(0.0..1.0)` draws of `StdRng::seed_from_u64 seed`). -/
def add_direction_noise (env : Env) (seed : Nat) (d : V3) : V3 :=
  let d : V3 := ⟨d.x + env.stream seed 0 * 0.2 - 0.1,
                 d.y + env.stream seed 1 * 0.2 - 0.1,
                 d.z + env.stream seed 2 * 0.2 - 0.1⟩
  let mag := env.sqrt (d.x * d.x + d.y * d.y + d.z * d.z)
  if mag > 0.001 then ⟨d.x / mag, d.y / mag, d.z / mag⟩ else d

/-- Candidate weight of one segment in `select_growth_segment`
(`(weight_base as f32 * depth_penalty) as usize`). -/
def segWeight (seg : DendriticSegment) : Nat :=
  let depth_penalty : ℚ := if seg.branch_depth > 2 then 0.7 else 1
  let child_count := seg.child_ids.length
  let weight_base : Nat := if child_count ≥ 3 then 1 else 3 - child_count
  (Rat.floor ((weight_base : ℚ) * depth_penalty)).toNat

/-- `DendriticTree::select_growth_segment`: weighted random choice among
segments below the depth limit, iterating the segment table in the
instance's enumeration order. -/
def select_growth_segment (env : Env) (t : DendriticTree) : Option Nat :=
  if t.segments.isEmpty then none
  else
    let seed := selSeed t
    let candidates := (t.perm (t.segments.map (fun e => e.1))).foldl
      (fun (acc : List Nat) i =>
        match lookupId t.segments i with
        | none => acc
        | some seg =>
          if seg.branch_depth < dendC.MAX_BRANCHING_DEPTH then
            acc ++ List.replicate (segWeight seg) i
          else acc)
      []
    match candidates with
    | [] => none
    | c :: cs => some ((c :: cs).getD (env.streamIdx seed (c :: cs).length) c)

/-- The part of `DendriticTree::grow` after the branching gate (source
lines 643-695): segment selection, energy debit, segment creation, cache
invalidation. -/
def growAfterGate (env : Env) (t : DendriticTree) (growth_factors : List GrowthFactor) :
    DendriticTree × Bool :=
  match select_growth_segment env t with
  | none => (t, false)
  | some segment_id =>
    match lookupId t.segments segment_id with
    | none => (t, false)
    | some parent =>
      let energy_cost := dendC.ENERGY_PER_GROWTH_UNIT *
        env.powf 1.1 (parent.branch_depth : ℚ)
      if t.energy < energy_cost then (t, false)
      else
        let t := { t with energy := t.energy - energy_cost }
        let dir0 := calculate_growth_direction env parent.position growth_factors
        let dir := add_direction_noise env (gateSeed t) dir0
        let length := 8 * env.powf 0.85 ((parent.branch_depth : ℚ) + 1)
        let new_pos : Position := ⟨parent.position.x + dir.x * length,
                                   parent.position.y + dir.y * length,
                                   parent.position.z + dir.z * length⟩
        let new_id := t.next_id
        let new_segment := DendriticSegment.new env new_id new_pos length
          (parent.branch_depth + 1) (some segment_id)
        let t := { t with
          segments := t.segments ++ [(new_id, new_segment)]
          next_id := t.next_id + 1 }
        let t := { t with
          segments := updateId t.segments segment_id (fun s => s.add_child new_id) }
        (t.invalidate_cache, true)

/-- The homeostatic branching probability of one `grow` step:
`BASE_BRANCHING_PROBABILITY * growth_rate_modifier * connectivity factor`. -/
def branchProb (t : DendriticTree) : ℚ :=
  let connection_r := (t.connection_count : ℚ) / (dendC.OPTIMAL_CONNECTION_COUNT : ℚ)
  dendC.BASE_BRANCHING_PROBABILITY * t.growth_rate_modifier *
    (if connection_r > 1.2 then 0.5 else if connection_r < 0.8 then 1.5 else 1)

/-- `DendriticTree::grow`. -/
def grow (env : Env) (t : DendriticTree) (growth_factors : List GrowthFactor)
    (time_step recent_activity : ℚ) : DendriticTree × Bool :=
  let t := { t with time := t.time + time_step }
  if t.energy < dendC.MIN_ENERGY_THRESHOLD then (t, false)
  else
    let t := { t with growth_rate_modifier := ratMin (0.5 + recent_activity) 2 }
    if env.stream (gateSeed t) 0 < branchProb t then (t, false)
    else growAfterGate env t growth_factors

/-- `DendriticTree::get_path_length`: memoised electrotonic path length.
The source recurses through `parent_id`; in every tree this engine builds,
a parent's id is strictly smaller than its child's (parents are created
first), which is the termination measure used here.  On a (unreachable)
parent link that does not decrease, the parent's contribution is dropped. -/
def get_path_length (env : Env) (t : DendriticTree) (segment_id : Nat) :
    ℚ × DendriticTree :=
  match lookupId t.path_length_cache segment_id with
  | some length => (length, t)
  | none =>
    match lookupId t.segments segment_id with
    | none => (0, t)
    | some segment =>
      let el := segment.calculate_electrotonic_length env
      match segment.parent_id with
      | some parent_id =>
        if _h : parent_id < segment_id then
          let r := get_path_length env t parent_id
          let total := r.1 + el
          (total, { r.2 with path_length_cache := r.2.path_length_cache ++ [(segment_id, total)] })
        else
          (el, { t with path_length_cache := t.path_length_cache ++ [(segment_id, el)] })
      | none =>
        (el, { t with path_length_cache := t.path_length_cache ++ [(segment_id, el)] })
termination_by segment_id

/-- The cache-free recursive path-length computation: the segment's own
electrotonic length plus the parent's path length, zero contribution for
roots (and for absent segments).  This is the "fresh recursive computation
under the current topology" of the specification. -/
def pathLenSpec (env : Env) (segments : List (Nat × DendriticSegment))
    (segment_id : Nat) : ℚ :=
  match lookupId segments segment_id with
  | none => 0
  | some segment =>
    let el := segment.calculate_electrotonic_length env
    match segment.parent_id with
    | some parent_id =>
      if _h : parent_id < segment_id then pathLenSpec env segments parent_id + el
      else el
    | none => el
termination_by segment_id

/-- `DendriticTree::update_connection_count`. -/
def update_connection_count (t : DendriticTree) : DendriticTree :=
  { t with connection_count :=
      (t.segments.map (fun e => (e.2.synapses.filter (fun s => s.state = .Active)).length)).sum }

/-- `DendriticTree::update_synapses`. -/
def update_synapses (env : Env) (t : DendriticTree) (active_inputs : List Nat) :
    DendriticTree × Nat :=
  let segment_ids := t.segments.map (fun e => e.1)
  let r := segment_ids.foldl
    (fun (acc : DendriticTree × Nat) segment_id =>
      let t := acc.1
      match lookupId t.segments segment_id with
      | none => acc
      | some seg =>
        let seg := seg.update_synapse_activity active_inputs t.time
        let seg := seg.compete_synapses env
        let pr := seg.prune_synapses t.time
        ({ t with segments := updateId t.segments segment_id (fun _ => pr.1) },
         acc.2 + pr.2))
    (t, 0)
  (r.1.update_connection_count, r.2)

/-- `DendriticTree::find_reactivatable_synapses`. -/
def find_reactivatable_synapses (t : DendriticTree)
    (recent_activity_pattern : List Nat) : List (Nat × Nat) :=
  t.segments.foldl
    (fun acc e =>
      acc ++ (e.2.synapses.filter
        (fun s => s.state = .Ghost ∧ s.source_neuron_id ∈ recent_activity_pattern)).map
        (fun s => (e.2.id, s.id)))
    []

/-- The in-place loop of `reactivate_synapse` over one segment's synapse
list: reactivates the first synapse with the given id that is a Ghost. -/
def reactivateInList (synapse_id : Nat) : List Synapse → List Synapse × Bool
  | [] => ([], false)
  | s :: rest =>
    if s.id = synapse_id ∧ s.state = .Ghost then
      ({ s with state := .Active, weight := 0.3 } :: rest, true)
    else
      let r := reactivateInList synapse_id rest
      (s :: r.1, r.2)

/-- `DendriticTree::reactivate_synapse`: no activity-pattern argument, the
only conditions are that the segment exists and the synapse is a Ghost. -/
def reactivate_synapse (t : DendriticTree) (segment_id synapse_id : Nat) :
    DendriticTree × Bool :=
  match lookupId t.segments segment_id with
  | none => (t, false)
  | some seg =>
    let r := reactivateInList synapse_id seg.synapses
    if r.2 then
      (({ t with segments :=
          updateId t.segments segment_id (fun s => { s with synapses := r.1 }) }).update_connection_count,
       true)
    else (t, false)

/-- `DendriticTree::add_synapse`. -/
def add_synapse (env : Env) (t : DendriticTree) (segment_id source_neuron_id : Nat) :
    DendriticTree × Option Nat :=
  let r := get_path_length env t segment_id
  let electrotonic_path := r.1
  let t := r.2
  match lookupId t.segments segment_id with
  | none => (t, none)
  | some seg =>
    let syn_id := t.next_id
    let t := { t with
      segments := updateId t.segments segment_id
        (fun s => s.add_synapse syn_id source_neuron_id seg.position electrotonic_path)
      next_id := t.next_id + 1 }
    (t.update_connection_count, some syn_id)

/-- `DendriticTree::add_energy`. -/
def add_energy (t : DendriticTree) (amount : ℚ) : DendriticTree :=
  { t with energy := t.energy + amount }

/-- `DendriticTree::complexity_score`. -/
def complexity_score (env : Env) (t : DendriticTree) : ℚ :=
  if t.segments.isEmpty then 0
  else
    let segment_count := (t.segments.length : ℚ)
    let avg_depth := (t.segments.map (fun e => (e.2.branch_depth : ℚ))).sum / segment_count
    let terminal_count :=
      ((t.segments.filter (fun e => e.2.child_ids.isEmpty)).length : ℚ)
    let depth_diversity :=
      (List.range 7).foldl
        (fun acc d =>
          let count := (t.segments.filter (fun e => min e.2.branch_depth 6 = d)).length
          if count > 0 then
            let p := (count : ℚ) / segment_count
            acc - p * env.log2 p
          else acc)
        0
    segment_count * (1 + avg_depth) * env.sqrt terminal_count * (1 + depth_diversity)

/-- `DendriticTree::segment_count`. -/
def segment_count (t : DendriticTree) : Nat := t.segments.length

end DendriticTree

/-- `dendritic_growth.rs`: resource allocation strategy. -/
inductive AllocationStrategy where
  | Equal
  | ActivityBased
  | GrowthPotential
deriving DecidableEq

/-- Termination measure for `distribute_energy`: the fallback branches
recurse only after switching to `Equal`. -/
def AllocationStrategy.rank : AllocationStrategy → Nat
  | .Equal => 0
  | _ => 1

/-- `dendritic_growth.rs`: the dendrite resource manager. -/
structure DendriteResourceManager where
  available_energy : ℚ
  allocation_strategy : AllocationStrategy
  last_distribution : ℚ
  distribution_interval : ℚ

namespace DendriteResourceManager

/-- `DendriteResourceManager::new`. -/
def new (initial_energy : ℚ) : DendriteResourceManager :=
  { available_energy := initial_energy
    allocation_strategy := .ActivityBased
    last_distribution := 0
    distribution_interval := 1 }

/-- `DendriteResourceManager::add_energy`. -/
def add_energy (m : DendriteResourceManager) (amount : ℚ) :
    DendriteResourceManager :=
  { m with available_energy := m.available_energy + amount }

/-- `DendriteResourceManager::set_strategy`. -/
def set_strategy (m : DendriteResourceManager) (strategy : AllocationStrategy) :
    DendriteResourceManager :=
  { m with allocation_strategy := strategy }

/-- The per-tree growth potential computed by the `GrowthPotential` branch
of `distribute_energy`. -/
def growthPotential (env : Env) (d : DendriticTree) : ℚ :=
  let complexity := d.complexity_score env
  let max_complexity : ℚ := 2000
  let inverse_complexity := (max_complexity - ratMin complexity max_complexity) / max_complexity
  let current_energy_r := d.energy / 100
  let energy_need := ratMax (1 - current_energy_r) 0
  inverse_complexity * energy_need * (1 + d.growth_rate_modifier)

/-- `DendriteResourceManager::distribute_energy`.  The fallback branches
set `allocation_strategy := Equal` and call the function again — note that
`last_distribution` has already been set to `current_time` at that point,
so the recursive call hits the interval guard whenever
`distribution_interval > 0`. -/
def distribute_energy (env : Env) (m : DendriteResourceManager)
    (dendrites : List DendriticTree) (current_time : ℚ) (activities : List ℚ) :
    DendriteResourceManager × List DendriticTree :=
  if current_time - m.last_distribution < m.distribution_interval then (m, dendrites)
  else if dendrites.isEmpty then (m, dendrites)
  else
    let m2 := { m with last_distribution := current_time }
    match _h : m.allocation_strategy with
    | .Equal =>
      let energy_per_dendrite := m2.available_energy / (dendrites.length : ℚ)
      ({ m2 with available_energy := 0 },
       dendrites.map (fun d => d.add_energy energy_per_dendrite))
    | .ActivityBased =>
      if activities.length ≠ dendrites.length then
        distribute_energy env { m2 with allocation_strategy := .Equal }
          dendrites current_time activities
      else
        let total_activity := activities.sum
        if total_activity ≤ 0.001 then
          distribute_energy env { m2 with allocation_strategy := .Equal }
            dendrites current_time activities
        else
          ({ m2 with available_energy := 0 },
           List.zipWith
             (fun (d : DendriticTree) (a : ℚ) =>
               d.add_energy (m2.available_energy * (a / total_activity)))
             dendrites activities)
    | .GrowthPotential =>
      let growth_potentials := dendrites.map (growthPotential env)
      let total_potential := growth_potentials.sum
      if total_potential ≤ 0.001 then
        distribute_energy env { m2 with allocation_strategy := .Equal }
          dendrites current_time activities
      else
        ({ m2 with available_energy := 0 },
         List.zipWith
           (fun (d : DendriticTree) (p : ℚ) =>
             d.add_energy (m2.available_energy * (p / total_potential)))
           dendrites growth_potentials)
termination_by m.allocation_strategy.rank
decreasing_by
  all_goals simp [AllocationStrategy.rank, _h]

end DendriteResourceManager

/-! ## Theorems -/

/-- An `Env` with trivial interpretations, used as a concrete input where a
claim leaves the transcendental functions unconstrained. -/
def env0 : Env :=
  { sqrt := fun _ => 0, powf := fun _ _ => 0, exp := fun _ => 0, sin := fun _ => 0
    cos := fun _ => 0, log2 := fun _ => 0, stream := fun _ _ => 0
    streamIdx := fun _ _ => 0 }

/-- C9 counterexample: both synapse constructors store a *negative*
caller-supplied electrotonic distance unchanged (`.min(MAX)` clamps only
from above), so the stored value is not in `[0, MAX_ELECTROTONIC_LENGTH]`
as the claim states. -/
theorem c9_counterexample :
    (Synapse.new 0 0 (Position.new 0 0 0) (-1)).electrotonic_distance = -1 ∧
    (Synapse.with_params 0 0 (Position.new 0 0 0) (-1) 0.5 0.01).electrotonic_distance = -1 ∧
    ¬ (0 : ℚ) ≤ -1 := by
  refine ⟨?_, ?_, by norm_num⟩ <;>
    norm_num [Synapse.new, Synapse.with_params, ratMin, dendC.MAX_ELECTROTONIC_LENGTH]

/-- C9 (amended): `Synapse::new` and `Synapse::with_params` store
`min electrotonic_distance MAX_ELECTROTONIC_LENGTH`: they clamp from above
only, and for nonnegative input the stored value lies in
`[0, MAX_ELECTROTONIC_LENGTH]`. -/
theorem c9_amended (id src : Nat) (pos : Position) (d w p : ℚ) (h : 0 ≤ d) :
    (Synapse.new id src pos d).electrotonic_distance =
      ratMin d dendC.MAX_ELECTROTONIC_LENGTH ∧
    (Synapse.with_params id src pos d w p).electrotonic_distance =
      ratMin d dendC.MAX_ELECTROTONIC_LENGTH ∧
    0 ≤ (Synapse.new id src pos d).electrotonic_distance ∧
    (Synapse.new id src pos d).electrotonic_distance ≤ dendC.MAX_ELECTROTONIC_LENGTH := by
  refine ⟨rfl, rfl, ?_, ?_⟩ <;>
    · simp only [Synapse.new, ratMin, dendC.MAX_ELECTROTONIC_LENGTH]
      split_ifs with hle
      all_goals first
        | exact h
        | exact hle
        | norm_num

/-- C9 witness: the amended theorem at `d = 2`. -/
theorem c9_amended_witness :
    (0 : ℚ) ≤ 2 ∧
    ((Synapse.new 0 0 (Position.new 0 0 0) 2).electrotonic_distance =
        ratMin 2 dendC.MAX_ELECTROTONIC_LENGTH ∧
      (Synapse.with_params 0 0 (Position.new 0 0 0) 2 0.5 0.01).electrotonic_distance =
        ratMin 2 dendC.MAX_ELECTROTONIC_LENGTH ∧
      0 ≤ (Synapse.new 0 0 (Position.new 0 0 0) 2).electrotonic_distance ∧
      (Synapse.new 0 0 (Position.new 0 0 0) 2).electrotonic_distance ≤
        dendC.MAX_ELECTROTONIC_LENGTH) :=
  ⟨by norm_num, c9_amended 0 0 (Position.new 0 0 0) 2 0.5 0.01 (by norm_num)⟩

/-- A call in a `strengthen`/`weaken` sequence on a synapse. -/
inductive PlasticOp where
  | str (amount : ℚ)
  | wk (amount : ℚ)

/-- The argument of a plasticity call. -/
def PlasticOp.amount : PlasticOp → ℚ
  | .str a => a
  | .wk a => a

/-- Apply one `strengthen`/`weaken` call. -/
def applyPlastic (env : Env) (s : Synapse) : PlasticOp → Synapse
  | .str a => s.strengthen env a
  | .wk a => s.weaken env a

/-- Apply a sequence of `strengthen`/`weaken` calls. -/
def runPlastic (env : Env) (s : Synapse) (ops : List PlasticOp) : Synapse :=
  ops.foldl (applyPlastic env) s

/-- An `Env` whose `powf` is the identity in its base (agreeing with the
real `powf` at `0^e = 0` and `1^e = 1` and nonnegative on `[0, 1]`), used
for concrete plasticity computations. -/
def envC5 : Env :=
  { env0 with powf := fun x _ => x }

/-- C5 counterexample: the claim quantifies over arbitrary `f32` arguments,
but `strengthen` applies no lower clamp, so a negative argument drives the
weight of a synapse below `0.01` (here from `0.5` to `0`): the weight is
*not* in `[0.01, 1]` after every call. -/
theorem c5_counterexample :
    (runPlastic envC5 (Synapse.with_params 0 0 (Position.new 0 0 0) 0 0.5 0.01)
      [PlasticOp.str (-100)]).weight = 0 ∧
    ¬ (0.01 : ℚ) ≤ 0 := by
  constructor
  · norm_num [runPlastic, applyPlastic, Synapse.strengthen, Synapse.with_params,
      ratClamp, ratMin, envC5, env0, List.foldl]
  · norm_num

/-- One `strengthen` call preserves `weight ∈ [0.01, 1]` when the argument
is nonnegative, the plasticity is nonnegative and `powf` is nonnegative on
nonnegative bases. -/
theorem strengthen_bounds (env : Env) (s : Synapse) (a : ℚ)
    (henv : ∀ x : ℚ, 0 ≤ x → 0 ≤ env.powf x 0.8)
    (hpl : 0 ≤ s.plasticity) (ha : 0 ≤ a)
    (hlo : 0.01 ≤ s.weight) (hhi : s.weight ≤ 1) :
    0.01 ≤ (s.strengthen env a).weight ∧ (s.strengthen env a).weight ≤ 1 := by
  have hd : 0 ≤ s.plasticity * a * env.powf (1 - s.weight) 0.8 :=
    mul_nonneg (mul_nonneg hpl ha) (henv _ (by linarith))
  unfold Synapse.strengthen ratMin
  constructor
  · dsimp only
    split_ifs with hle
    · linarith
    · norm_num
  · dsimp only
    split_ifs with hle
    · exact hle
    · norm_num

/-- One `weaken` call preserves `weight ∈ [0.01, 1]` under the same
conditions. -/
theorem weaken_bounds (env : Env) (s : Synapse) (a : ℚ)
    (henv : ∀ x : ℚ, 0 ≤ x → 0 ≤ env.powf x 0.8)
    (hpl : 0 ≤ s.plasticity) (ha : 0 ≤ a)
    (hlo : 0.01 ≤ s.weight) (hhi : s.weight ≤ 1) :
    0.01 ≤ (s.weaken env a).weight ∧ (s.weaken env a).weight ≤ 1 := by
  have hd : 0 ≤ s.plasticity * a * env.powf s.weight 0.8 :=
    mul_nonneg (mul_nonneg hpl ha) (henv _ (by linarith))
  unfold Synapse.weaken
  dsimp only
  split_ifs with hfl
  · norm_num
  · constructor
    · linarith
    · linarith

/-- Neither `strengthen` nor `weaken` changes the plasticity. -/
theorem applyPlastic_plasticity (env : Env) (s : Synapse) (op : PlasticOp) :
    (applyPlastic env s op).plasticity = s.plasticity := by
  cases op with
  | str a =>
    simp only [applyPlastic, Synapse.strengthen]
  | wk a =>
    simp only [applyPlastic, Synapse.weaken]
    split_ifs <;> rfl

/-- C5 (amended): for a synapse whose weight starts in `[0.01, 1]` and whose
plasticity is nonnegative, and for every finite sequence of `strengthen` and
`weaken` calls with *nonnegative* arguments, the weight lies in `[0.01, 1]`
after every call (the claim's original "arbitrary sign" fails: see the
counterexample). -/
theorem c5_amended (env : Env) (s : Synapse) (ops : List PlasticOp)
    (henv : ∀ x : ℚ, 0 ≤ x → 0 ≤ env.powf x 0.8)
    (hpl : 0 ≤ s.plasticity)
    (hlo : 0.01 ≤ s.weight) (hhi : s.weight ≤ 1)
    (hops : ∀ op ∈ ops, 0 ≤ op.amount) :
    0.01 ≤ (runPlastic env s ops).weight ∧ (runPlastic env s ops).weight ≤ 1 := by
  induction ops generalizing s with
  | nil => exact ⟨hlo, hhi⟩
  | cons op rest ih =>
    have hop : 0 ≤ op.amount := hops op (List.mem_cons_self op rest)
    have hstep : 0.01 ≤ (applyPlastic env s op).weight ∧
        (applyPlastic env s op).weight ≤ 1 := by
      cases op with
      | str a => exact strengthen_bounds env s a henv hpl hop hlo hhi
      | wk a => exact weaken_bounds env s a henv hpl hop hlo hhi
    have hpl' : 0 ≤ (applyPlastic env s op).plasticity := by
      rw [applyPlastic_plasticity]; exact hpl
    exact ih (applyPlastic env s op) hpl' hstep.1 hstep.2
      (fun o ho => hops o (List.mem_cons_of_mem op ho))

/-- C5 witness: the amended theorem on a fresh default synapse
(weight `0.1`, plasticity `0.01`) with the sequence
`[strengthen 1, weaken 2]` under `envC5`. -/
theorem c5_amended_witness :
    0.01 ≤ (runPlastic envC5 (Synapse.new 0 0 (Position.new 0 0 0) 0)
        [PlasticOp.str 1, PlasticOp.wk 2]).weight ∧
    (runPlastic envC5 (Synapse.new 0 0 (Position.new 0 0 0) 0)
        [PlasticOp.str 1, PlasticOp.wk 2]).weight ≤ 1 :=
  c5_amended envC5 (Synapse.new 0 0 (Position.new 0 0 0) 0)
    [PlasticOp.str 1, PlasticOp.wk 2]
    (fun _ hx => hx)
    (by norm_num [Synapse.new])
    (by norm_num [Synapse.new, ratMin, dendC.MAX_ELECTROTONIC_LENGTH])
    (by norm_num [Synapse.new, ratMin, dendC.MAX_ELECTROTONIC_LENGTH])
    (by intro op hop
        simp only [List.mem_cons, List.mem_singleton] at hop
        rcases hop with h | h | h
        all_goals first
          | (rw [h]; norm_num [PlasticOp.amount])
          | exact absurd h (by simp))

/-- C8: whenever `AxonGrowth::grow` returns a positive amount, the energy
after the call is exactly the energy before minus
`amount * ENERGY_PER_GROWTH_UNIT`, and the cumulative length grows by
exactly `amount`. -/
theorem c8_theorem (env : Env) (a : AxonGrowth) (factors : List GrowthFactor)
    (time_step : ℚ) (h : 0 < (AxonGrowth.grow env a factors time_step).1) :
    (AxonGrowth.grow env a factors time_step).2.energy =
      a.energy - (AxonGrowth.grow env a factors time_step).1 * axonC.ENERGY_PER_GROWTH_UNIT ∧
    (AxonGrowth.grow env a factors time_step).2.length =
      a.length + (AxonGrowth.grow env a factors time_step).1 := by
  by_cases h1 : ¬ a.can_grow
  · exfalso
    simp only [AxonGrowth.grow, if_pos h1] at h
    exact absurd h (by norm_num)
  · by_cases h2 : ({ a with direction := (AxonGrowth.plan env a factors).2 } :
        AxonGrowth).energy < AxonGrowth.energyCost env a factors time_step
    · exfalso
      simp only [AxonGrowth.grow, if_neg h1, if_pos h2] at h
      exact absurd h (by norm_num)
    · simp only [AxonGrowth.grow, if_neg h1, if_neg h2]
      exact ⟨rfl, rfl⟩

/-- C8 witness: on a fresh axon with energy `100`, no factors and
`time_step = 1`, `grow` returns `10 > 0`, debits exactly `10` energy and
adds exactly `10` length. -/
theorem c8_witness :
    0 < (AxonGrowth.grow env0 (AxonGrowth.new (Position.new 0 0 0) 100) [] 1).1 ∧
    ((AxonGrowth.grow env0 (AxonGrowth.new (Position.new 0 0 0) 100) [] 1).2.energy =
        (AxonGrowth.new (Position.new 0 0 0) 100).energy -
          (AxonGrowth.grow env0 (AxonGrowth.new (Position.new 0 0 0) 100) [] 1).1 *
            axonC.ENERGY_PER_GROWTH_UNIT ∧
      (AxonGrowth.grow env0 (AxonGrowth.new (Position.new 0 0 0) 100) [] 1).2.length =
        (AxonGrowth.new (Position.new 0 0 0) 100).length +
          (AxonGrowth.grow env0 (AxonGrowth.new (Position.new 0 0 0) 100) [] 1).1) :=
  ⟨by norm_num [AxonGrowth.grow, AxonGrowth.plan, AxonGrowth.new, AxonGrowth.can_grow,
      AxonGrowth.energyCost, AxonGrowth.growthAmount, AxonGrowth.growthRate,
      ratClamp, axonC.BASE_GROWTH_RATE, axonC.MAX_FACTOR_INFLUENCE,
      axonC.ENERGY_PER_GROWTH_UNIT, axonC.MIN_ENERGY_THRESHOLD, env0],
   c8_theorem env0 (AxonGrowth.new (Position.new 0 0 0) 100) [] 1
     (by norm_num [AxonGrowth.grow, AxonGrowth.plan, AxonGrowth.new, AxonGrowth.can_grow,
       AxonGrowth.energyCost, AxonGrowth.growthAmount, AxonGrowth.growthRate,
       ratClamp, axonC.BASE_GROWTH_RATE, axonC.MAX_FACTOR_INFLUENCE,
       axonC.ENERGY_PER_GROWTH_UNIT, axonC.MIN_ENERGY_THRESHOLD, env0])⟩

/-- On every abort path, `growAfterGate` returns its input tree unchanged
(the energy debit happens only after the last abort check). -/
theorem growAfterGate_false_eq (env : Env) (t : DendriticTree)
    (f : List GrowthFactor)
    (h : (DendriticTree.growAfterGate env t f).2 = false) :
    (DendriticTree.growAfterGate env t f).1 = t := by
  cases hsel : DendriticTree.select_growth_segment env t with
  | none => simp only [DendriticTree.growAfterGate, hsel]
  | some sid =>
    cases hlk : lookupId t.segments sid with
    | none => simp only [DendriticTree.growAfterGate, hsel, hlk]
    | some parent =>
      by_cases hc : t.energy <
          dendC.ENERGY_PER_GROWTH_UNIT * env.powf 1.1 (parent.branch_depth : ℚ)
      · simp only [DendriticTree.growAfterGate, hsel, hlk, if_pos hc]
      · exfalso
        simp only [DendriticTree.growAfterGate, hsel, hlk, if_neg hc] at h
        exact Bool.noConfusion h

/-- When `DendriticTree::grow` returns `false`, the energy, the segment
table, the cache and the signature are unchanged — but the simulated time
has already been advanced by `time_step`. -/
theorem grow_false_frame (env : Env) (t : DendriticTree)
    (f : List GrowthFactor) (ts act : ℚ)
    (h : (DendriticTree.grow env t f ts act).2 = false) :
    (DendriticTree.grow env t f ts act).1.energy = t.energy ∧
    (DendriticTree.grow env t f ts act).1.segments = t.segments ∧
    (DendriticTree.grow env t f ts act).1.time = t.time + ts ∧
    (DendriticTree.grow env t f ts act).1.path_length_cache = t.path_length_cache ∧
    (DendriticTree.grow env t f ts act).1.tree_signature = t.tree_signature := by
  simp only [DendriticTree.grow] at h ⊢
  split_ifs at h ⊢ <;>
    first
      | exact ⟨rfl, rfl, rfl, rfl, rfl⟩
      | (rw [growAfterGate_false_eq _ _ _ h]; exact ⟨rfl, rfl, rfl, rfl, rfl⟩)

/-- C3 counterexample: a `DendriticTree` with zero energy — `grow` returns
`false` (no growth), yet the state *is* mutated: `time` has advanced from
`0` to `1`, refuting "the object's entire state is unchanged". -/
theorem c3_counterexample :
    (DendriticTree.grow env0 (DendriticTree.new 0 0 (fun l => l)) [] 1 0).2 = false ∧
    (DendriticTree.grow env0 (DendriticTree.new 0 0 (fun l => l)) [] 1 0).1.time = 1 ∧
    (DendriticTree.new 0 0 (fun l => l)).time = 0 ∧ (1 : ℚ) ≠ 0 := by
  refine ⟨?_, ?_, rfl, by norm_num⟩ <;>
    norm_num [DendriticTree.grow, DendriticTree.new, dendC.MIN_ENERGY_THRESHOLD]

/-- C3 (amended): an energy-starved growth step leaves energy, position,
segments, length, time and measurements unchanged on an axon, and leaves
energy and segments unchanged on a dendritic tree — but `AxonGrowth` may
already have updated its `direction` when the abort happens at the
energy-cost check, and `DendriticTree::grow` always advances `time` (and,
past the low-energy check, `growth_rate_modifier`) before aborting. -/
theorem c3_amended (env : Env) (a : AxonGrowth) (af : List GrowthFactor)
    (ats : ℚ) (t : DendriticTree) (df : List GrowthFactor) (dts dact : ℚ)
    (hax : ¬ a.can_grow ∨ a.energy < AxonGrowth.energyCost env a af ats)
    (hden : (DendriticTree.grow env t df dts dact).2 = false) :
    (AxonGrowth.grow env a af ats).1 = 0 ∧
    (AxonGrowth.grow env a af ats).2.energy = a.energy ∧
    (AxonGrowth.grow env a af ats).2.position = a.position ∧
    (AxonGrowth.grow env a af ats).2.segments = a.segments ∧
    (AxonGrowth.grow env a af ats).2.length = a.length ∧
    (AxonGrowth.grow env a af ats).2.time = a.time ∧
    (AxonGrowth.grow env a af ats).2.measurements = a.measurements ∧
    (DendriticTree.grow env t df dts dact).1.energy = t.energy ∧
    (DendriticTree.grow env t df dts dact).1.segments = t.segments ∧
    (DendriticTree.grow env t df dts dact).1.time = t.time + dts := by
  have hden' := grow_false_frame env t df dts dact hden
  have hax' : (AxonGrowth.grow env a af ats) = (0, a) ∨
      (AxonGrowth.grow env a af ats) =
        (0, { a with direction := (AxonGrowth.plan env a af).2 }) := by
    rcases hax with h1 | h2
    · left; simp only [AxonGrowth.grow, if_pos h1]
    · by_cases h1 : ¬ a.can_grow
      · left; simp only [AxonGrowth.grow, if_pos h1]
      · right
        simp only [AxonGrowth.grow, if_neg h1]
        rw [if_pos h2]
  rcases hax' with he | he <;>
    exact ⟨by rw [he], by rw [he], by rw [he], by rw [he], by rw [he], by rw [he],
      by rw [he], hden'.1, hden'.2.1, hden'.2.2.1⟩

/-- C3 witness: the amended theorem on an axon and a tree that both start
with zero energy. -/
theorem c3_amended_witness :
    (¬ (AxonGrowth.new (Position.new 0 0 0) 0).can_grow ∨
      (AxonGrowth.new (Position.new 0 0 0) 0).energy <
        AxonGrowth.energyCost env0 (AxonGrowth.new (Position.new 0 0 0) 0) [] 1) ∧
    (DendriticTree.grow env0 (DendriticTree.new 0 0 (fun l => l)) [] 1 0).2 = false ∧
    ((AxonGrowth.grow env0 (AxonGrowth.new (Position.new 0 0 0) 0) [] 1).1 = 0 ∧
      (AxonGrowth.grow env0 (AxonGrowth.new (Position.new 0 0 0) 0) [] 1).2.energy =
        (AxonGrowth.new (Position.new 0 0 0) 0).energy ∧
      (DendriticTree.grow env0 (DendriticTree.new 0 0 (fun l => l)) [] 1 0).1.energy =
        (DendriticTree.new 0 0 (fun l => l)).energy) := by
  have hax : ¬ (AxonGrowth.new (Position.new 0 0 0) 0).can_grow :=
    by norm_num [AxonGrowth.new, AxonGrowth.can_grow, axonC.MIN_ENERGY_THRESHOLD]
  have hden : (DendriticTree.grow env0 (DendriticTree.new 0 0 (fun l => l)) [] 1 0).2 = false :=
    by norm_num [DendriticTree.grow, DendriticTree.new, dendC.MIN_ENERGY_THRESHOLD]
  have main := c3_amended env0 (AxonGrowth.new (Position.new 0 0 0) 0) [] 1
    (DendriticTree.new 0 0 (fun l => l)) [] 1 0 (Or.inl hax) hden
  exact ⟨Or.inl hax, hden, main.1, main.2.1, main.2.2.2.2.2.2.2.1⟩

/-- An `Env` for the C2 computation: the single unit draw is `0`. -/
def envC2 : Env := { env0 with cos := fun _ => 1, sqrt := fun _ => 1, powf := fun _ _ => 1 }

/-- A concrete one-root dendritic tree for the C2 computation. -/
def segC2 : DendriticSegment :=
  { id := 0, position := Position.new 5 0 0, length := 10, diameter := 2
    branch_depth := 0, synapses := [], parent_id := none, child_ids := []
    cable_properties := CableProperties.default }

def treeC2 : DendriticTree :=
  { DendriticTree.new 0 100 (fun l => l) with
    segments := [(0, segC2)], root_segment_ids := [0] }

/-- C2 counterexample: with ample energy, a draw of `0` — *at or below* the
branching probability `0.195` — makes the step abort (`false` is returned
and no segment is created), refuting "a draw at or below the probability
lets the step proceed to branch creation": in the code a draw *below* the
probability aborts. -/
theorem c2_counterexample :
    (DendriticTree.grow envC2 treeC2 [] 1 (4/5)).2 = false ∧
    (DendriticTree.grow envC2 treeC2 [] 1 (4/5)).1.segment_count = treeC2.segment_count ∧
    envC2.stream
        (DendriticTree.gateSeed
          { treeC2 with time := treeC2.time + 1, growth_rate_modifier := ratMin (0.5 + 4/5) 2 }) 0 ≤
      DendriticTree.branchProb
        { treeC2 with time := treeC2.time + 1, growth_rate_modifier := ratMin (0.5 + 4/5) 2 } := by
  refine ⟨?_, ?_, ?_⟩ <;>
    norm_num [DendriticTree.grow, DendriticTree.branchProb, DendriticTree.new,
      DendriticTree.segment_count, treeC2, segC2, envC2, env0, ratMin,
      dendC.MIN_ENERGY_THRESHOLD, dendC.BASE_BRANCHING_PROBABILITY,
      dendC.OPTIMAL_CONNECTION_COUNT]

/-- C2 (amended): with sufficient energy, the deterministically seeded gate
of `DendriticTree::grow` aborts the step (returns `false` with no branch
created) exactly when the draw in `[0,1)` is strictly *below* the computed
branching probability; a draw at or above the probability lets the step
proceed past the gate to segment selection and branch creation. -/
theorem c2_amended (env : Env) (t : DendriticTree) (f : List GrowthFactor)
    (ts act : ℚ)
    (h : ¬ ({ t with time := t.time + ts } : DendriticTree).energy <
      dendC.MIN_ENERGY_THRESHOLD) :
    (env.stream
        (DendriticTree.gateSeed
          { t with time := t.time + ts, growth_rate_modifier := ratMin (0.5 + act) 2 }) 0 <
        DendriticTree.branchProb
          { t with time := t.time + ts, growth_rate_modifier := ratMin (0.5 + act) 2 } →
      DendriticTree.grow env t f ts act =
        ({ t with time := t.time + ts, growth_rate_modifier := ratMin (0.5 + act) 2 }, false)) ∧
    (¬ env.stream
        (DendriticTree.gateSeed
          { t with time := t.time + ts, growth_rate_modifier := ratMin (0.5 + act) 2 }) 0 <
        DendriticTree.branchProb
          { t with time := t.time + ts, growth_rate_modifier := ratMin (0.5 + act) 2 } →
      DendriticTree.grow env t f ts act =
        DendriticTree.growAfterGate env
          { t with time := t.time + ts, growth_rate_modifier := ratMin (0.5 + act) 2 } f) := by
  simp only [DendriticTree.grow, if_neg h]
  constructor <;> intro hd
  · rw [if_pos hd]
  · rw [if_neg hd]

/-- C2 witness: the amended theorem on the concrete tree of the
counterexample, where the draw (`0`) is below the probability (`0.195`)
and the step indeed aborts at the gate. -/
theorem c2_amended_witness :
    ¬ ({ treeC2 with time := treeC2.time + 1 } : DendriticTree).energy <
        dendC.MIN_ENERGY_THRESHOLD ∧
    (envC2.stream
        (DendriticTree.gateSeed
          { treeC2 with time := treeC2.time + 1, growth_rate_modifier := ratMin (0.5 + 4/5) 2 }) 0 <
        DendriticTree.branchProb
          { treeC2 with time := treeC2.time + 1, growth_rate_modifier := ratMin (0.5 + 4/5) 2 } →
      DendriticTree.grow envC2 treeC2 [] 1 (4/5) =
        ({ treeC2 with time := treeC2.time + 1, growth_rate_modifier := ratMin (0.5 + 4/5) 2 },
         false)) := by
  have h : ¬ ({ treeC2 with time := treeC2.time + 1 } : DendriticTree).energy <
      dendC.MIN_ENERGY_THRESHOLD := by
    norm_num [treeC2, DendriticTree.new, dendC.MIN_ENERGY_THRESHOLD]
  exact ⟨h, (c2_amended envC2 treeC2 [] 1 (4/5) h).1⟩

def mgrC4 : DendriteResourceManager := DendriteResourceManager.new 100

def tC4a : DendriticTree := DendriticTree.new 0 10 (fun l => l)

def tC4b : DendriticTree := DendriticTree.new 1 10 (fun l => l)

/-- C4: the failing input.  Under `ActivityBased`, with the interval
elapsed and total activity `0`, the fallback sets the strategy to `Equal`
and recurses — but `last_distribution` has already been set to
`current_time`, so the recursive call returns at the interval guard: *no
tree receives any energy in that call* and `available_energy` stays `100`,
contradicting the claimed same-call Equal distribution. -/
theorem c4_theorem :
    ((DendriteResourceManager.distribute_energy env0 mgrC4 [tC4a, tC4b] 1 [0, 0]).2.map
        (fun d => d.energy)) = [10, 10] ∧
    (DendriteResourceManager.distribute_energy env0 mgrC4 [tC4a, tC4b] 1 [0, 0]).1.available_energy = 100 ∧
    (DendriteResourceManager.distribute_energy env0 mgrC4 [tC4a, tC4b] 1 [0, 0]).1.allocation_strategy =
      AllocationStrategy.Equal ∧
    (DendriteResourceManager.distribute_energy env0 mgrC4 [tC4a, tC4b] 1 [0, 0]).1.last_distribution = 1 := by
  have hm : mgrC4 = DendriteResourceManager.mk 100 AllocationStrategy.ActivityBased 0 1 := rfl
  rw [hm]
  norm_num [DendriteResourceManager.distribute_energy, tC4a, tC4b, DendriticTree.new]

/-- A manager whose strategy is `Equal` still has strategy `Equal` after
any `distribute_energy` call. -/
theorem distribute_equal_strategy (env : Env) (m : DendriteResourceManager)
    (ds : List DendriticTree) (t : ℚ) (acts : List ℚ)
    (h : m.allocation_strategy = AllocationStrategy.Equal) :
    (DendriteResourceManager.distribute_energy env m ds t acts).1.allocation_strategy =
      AllocationStrategy.Equal := by
  rw [DendriteResourceManager.distribute_energy]
  by_cases h1 : t - m.last_distribution < m.distribution_interval
  · rw [if_pos h1]; exact h
  · rw [if_neg h1]
    by_cases h2 : ds.isEmpty
    · rw [if_pos h2]; exact h
    · rw [if_neg h2]
      split <;> rename_i hs
      · exact h
      · rw [h] at hs; exact AllocationStrategy.noConfusion hs
      · rw [h] at hs; exact AllocationStrategy.noConfusion hs

/-- C10: when the fallback of `distribute_energy` triggers (ActivityBased
with a length mismatch or near-zero total activity, or GrowthPotential with
near-zero total potential), the manager's `allocation_strategy` field is
overwritten to `Equal` and stays so after the call; and every call on a
manager whose strategy is `Equal` performs an Equal distribution regardless
of the supplied activity vector. -/
theorem c10_theorem (env : Env) (m : DendriteResourceManager)
    (dendrites : List DendriticTree) (current_time : ℚ) (activities : List ℚ)
    (hguard : ¬ current_time - m.last_distribution < m.distribution_interval)
    (hne : ¬ dendrites.isEmpty)
    (htrig : (m.allocation_strategy = AllocationStrategy.ActivityBased ∧
        (activities.length ≠ dendrites.length ∨ activities.sum ≤ 0.001)) ∨
      (m.allocation_strategy = AllocationStrategy.GrowthPotential ∧
        (dendrites.map (DendriteResourceManager.growthPotential env)).sum ≤ 0.001)) :
    (DendriteResourceManager.distribute_energy env m dendrites current_time
        activities).1.allocation_strategy = AllocationStrategy.Equal ∧
    (∀ (m' : DendriteResourceManager) (ds' : List DendriticTree) (t' : ℚ)
        (acts' : List ℚ),
      m'.allocation_strategy = AllocationStrategy.Equal →
      ¬ t' - m'.last_distribution < m'.distribution_interval →
      DendriteResourceManager.distribute_energy env m' ds' t' acts' =
        (if ds'.isEmpty then (m', ds')
         else ({ m' with last_distribution := t', available_energy := 0 },
           ds'.map (fun d =>
             d.add_energy (m'.available_energy / (ds'.length : ℚ)))))) := by
  constructor
  · rw [DendriteResourceManager.distribute_energy, if_neg hguard, if_neg hne]
    split <;> rename_i hs
    · rcases htrig with ⟨hstr, _⟩ | ⟨hstr, _⟩ <;>
        (rw [hs] at hstr; exact AllocationStrategy.noConfusion hstr)
    · rcases htrig with ⟨_, hcase⟩ | ⟨hstr, _⟩
      · by_cases hlen : activities.length ≠ dendrites.length
        · rw [if_pos hlen]
          exact distribute_equal_strategy env _ _ _ _ rfl
        · rw [if_neg hlen]
          have hsum : activities.sum ≤ 0.001 := by
            rcases hcase with hmis | hsum
            · exact absurd hmis hlen
            · exact hsum
          rw [if_pos hsum]
          exact distribute_equal_strategy env _ _ _ _ rfl
      · rw [hs] at hstr; exact AllocationStrategy.noConfusion hstr
    · rcases htrig with ⟨hstr, _⟩ | ⟨_, hpot⟩
      · rw [hs] at hstr; exact AllocationStrategy.noConfusion hstr
      · rw [if_pos hpot]
        exact distribute_equal_strategy env _ _ _ _ rfl
  · intro m' ds' t' acts' hEq hg'
    rw [DendriteResourceManager.distribute_energy, if_neg hg']
    by_cases he : ds'.isEmpty
    · rw [if_pos he, if_pos he]
    · rw [if_neg he, if_neg he]
      split <;> rename_i hs
      · rfl
      · rw [hEq] at hs; exact AllocationStrategy.noConfusion hs
      · rw [hEq] at hs; exact AllocationStrategy.noConfusion hs

/-- C10 witness: a manager in `ActivityBased` with a mismatching (empty)
activity vector: after the call the strategy is `Equal`. -/
theorem c10_witness :
    ¬ (1 : ℚ) - mgrC4.last_distribution < mgrC4.distribution_interval ∧
    ¬ ([tC4a] : List DendriticTree).isEmpty ∧
    (mgrC4.allocation_strategy = AllocationStrategy.ActivityBased ∧
      (([] : List ℚ).length ≠ ([tC4a] : List DendriticTree).length ∨
        ([] : List ℚ).sum ≤ 0.001)) ∧
    (DendriteResourceManager.distribute_energy env0 mgrC4 [tC4a] 1
        []).1.allocation_strategy = AllocationStrategy.Equal := by
  have hguard : ¬ (1 : ℚ) - mgrC4.last_distribution < mgrC4.distribution_interval := by
    norm_num [mgrC4, DendriteResourceManager.new]
  have hne : ¬ ([tC4a] : List DendriticTree).isEmpty := by simp
  have htrig : mgrC4.allocation_strategy = AllocationStrategy.ActivityBased ∧
      (([] : List ℚ).length ≠ ([tC4a] : List DendriticTree).length ∨
        ([] : List ℚ).sum ≤ 0.001) := ⟨rfl, Or.inl (by simp)⟩
  exact ⟨hguard, hne, htrig,
    (c10_theorem env0 mgrC4 [tC4a] 1 [] hguard hne (Or.inl htrig)).1⟩

/-- `reactivate_synapse`'s inner loop succeeds iff some synapse in the list
has the given id and is a Ghost. -/
theorem reactivateInList_true_iff (sid : Nat) (l : List Synapse) :
    (DendriticTree.reactivateInList sid l).2 = true ↔
      ∃ s ∈ l, s.id = sid ∧ s.state = SynapseState.Ghost := by
  induction l with
  | nil => simp [DendriticTree.reactivateInList]
  | cons s rest ih =>
    by_cases hc : s.id = sid ∧ s.state = SynapseState.Ghost
    · simp [DendriticTree.reactivateInList, hc]
    · simp only [DendriticTree.reactivateInList, if_neg hc, List.mem_cons]
      constructor
      · intro h
        rcases ih.mp h with ⟨s', hs', hp⟩
        exact ⟨s', Or.inr hs', hp⟩
      · rintro ⟨s', hs' | hs', hp⟩
        · exact absurd (hs' ▸ hp) hc
        · exact ih.mpr ⟨s', hs', hp⟩

/-- On success, `reactivate_synapse`'s inner loop leaves in the list a
synapse with the given id, state `Active` and weight exactly `0.3`. -/
theorem reactivateInList_found (sid : Nat) (l : List Synapse)
    (h : (DendriticTree.reactivateInList sid l).2 = true) :
    ∃ s' ∈ (DendriticTree.reactivateInList sid l).1,
      s'.id = sid ∧ s'.state = SynapseState.Active ∧ s'.weight = 0.3 := by
  induction l with
  | nil => simp [DendriticTree.reactivateInList] at h
  | cons s rest ih =>
    by_cases hc : s.id = sid ∧ s.state = SynapseState.Ghost
    · refine ⟨{ s with state := SynapseState.Active, weight := 0.3 }, ?_, hc.1, rfl, rfl⟩
      simp [DendriticTree.reactivateInList, hc]
    · simp only [DendriticTree.reactivateInList, if_neg hc] at h ⊢
      rcases ih h with ⟨s', hs', hp⟩
      exact ⟨s', List.mem_cons_of_mem s hs', hp⟩

/-- Updating a key with `updateId` updates the value `lookupId` finds. -/
theorem lookupId_updateId {α : Type} (l : List (Nat × α)) (k : Nat) (f : α → α) :
    lookupId (updateId l k f) k = (lookupId l k).map f := by
  induction l with
  | nil => rfl
  | cons e rest ih =>
    obtain ⟨i, s⟩ := e
    by_cases hk : i = k
    · simp only [lookupId, updateId, if_pos hk, Option.map_some']
    · simp only [lookupId, updateId, if_neg hk, ih]

/-- `updateId` leaves other keys untouched. -/
theorem lookupId_updateId_ne {α : Type} (l : List (Nat × α)) (k k' : Nat)
    (f : α → α) (h : k ≠ k') :
    lookupId (updateId l k f) k' = lookupId l k' := by
  induction l with
  | nil => rfl
  | cons e rest ih =>
    obtain ⟨i, s⟩ := e
    by_cases hk : i = k
    · have hk' : ¬ i = k' := by rw [hk]; exact h
      simp only [lookupId, updateId, if_pos hk, if_neg hk', ih]
    · by_cases hk' : i = k'
      · simp only [lookupId, updateId, if_neg hk, if_pos hk']
      · simp only [lookupId, updateId, if_neg hk, if_neg hk', ih]

/-- Membership in a fold that appends `g e` per element. -/
theorem mem_foldl_append {α β : Type} (g : β → List α) (l : List β)
    (acc : List α) (x : α) :
    x ∈ l.foldl (fun a e => a ++ g e) acc ↔ x ∈ acc ∨ ∃ e ∈ l, x ∈ g e := by
  induction l generalizing acc with
  | nil => simp
  | cons e rest ih =>
    simp only [List.foldl_cons, ih, List.mem_append, List.mem_cons]
    constructor
    · rintro ((hx | hx) | ⟨e', he', hx⟩)
      · exact Or.inl hx
      · exact Or.inr ⟨e, Or.inl rfl, hx⟩
      · exact Or.inr ⟨e', Or.inr he', hx⟩
    · rintro (hx | ⟨e', rfl | he', hx⟩)
      · exact Or.inl (Or.inl hx)
      · exact Or.inl (Or.inr hx)
      · exact Or.inr ⟨e', he', hx⟩

def synC7 : Synapse :=
  { id := 7, source_neuron_id := 5, weight := 0.001, position := Position.new 0 0 0
    electrotonic_distance := 0, state := SynapseState.Ghost, activity_history := []
    last_active := 0, plasticity := 0.01 }

def segC7 : DendriticSegment :=
  { id := 0, position := Position.new 0 0 0, length := 10, diameter := 2
    branch_depth := 0, synapses := [synC7], parent_id := none, child_ids := []
    cable_properties := CableProperties.default }

def treeC7 : DendriticTree :=
  { DendriticTree.new 0 100 (fun l => l) with
    segments := [(0, segC7)], root_segment_ids := [0] }

/-- C7 counterexample: `reactivate_synapse` succeeds on a Ghost synapse
although its source neuron appears in *no* caller-supplied list of recently
active sources (here the list is empty and `find_reactivatable_synapses`
returns no candidate): the transition is not "permitted only if" the source
appears in such a list — the function performs no list check at all. -/
theorem c7_counterexample :
    (DendriticTree.reactivate_synapse treeC7 0 7).2 = true ∧
    DendriticTree.find_reactivatable_synapses treeC7 [] = [] ∧
    synC7.source_neuron_id ∉ ([] : List Nat) := by
  refine ⟨?_, ?_, by simp⟩
  · simp [DendriticTree.reactivate_synapse, treeC7, segC7, synC7, lookupId,
      DendriticTree.reactivateInList]
  · simp [DendriticTree.find_reactivatable_synapses, treeC7, segC7, synC7]

/-- C7 (amended): (i) no synapse-level operation other than
`reactivate_synapse` turns a Ghost synapse Active in a single step
(`update_activity`, `strengthen` and `convert_to_ghost` leave it Ghost;
`weaken` and `check_inactivity` leave it non-Active); (ii)
`reactivate_synapse` succeeds exactly when the addressed segment exists and
holds a synapse with the given id in the Ghost state — it performs no check
against any recently-active-source list; (iii) on success the synapse's
weight is reset to exactly `0.3` and its state becomes `Active`; (iv) the
caller-supplied activity list gates only `find_reactivatable_synapses`,
which lists exactly the Ghost synapses whose source appears in the list. -/
theorem c7_amended (env : Env) (s : Synapse) (ct a amt : ℚ)
    (t : DendriticTree) (segment_id synapse_id : Nat) (pattern : List Nat)
    (hg : s.state = SynapseState.Ghost) :
    (s.update_activity ct a).state = SynapseState.Ghost ∧
    (s.strengthen env amt).state = SynapseState.Ghost ∧
    (s.weaken env amt).state ≠ SynapseState.Active ∧
    (s.check_inactivity ct).2.state ≠ SynapseState.Active ∧
    s.convert_to_ghost.state = SynapseState.Ghost ∧
    ((t.reactivate_synapse segment_id synapse_id).2 = true ↔
      ∃ seg, lookupId t.segments segment_id = some seg ∧
        ∃ s' ∈ seg.synapses, s'.id = synapse_id ∧ s'.state = SynapseState.Ghost) ∧
    ((t.reactivate_synapse segment_id synapse_id).2 = true →
      ∃ seg, lookupId (t.reactivate_synapse segment_id synapse_id).1.segments
          segment_id = some seg ∧
        ∃ s' ∈ seg.synapses, s'.id = synapse_id ∧
          s'.state = SynapseState.Active ∧ s'.weight = 0.3) ∧
    (∀ pr : Nat × Nat, pr ∈ t.find_reactivatable_synapses pattern ↔
      ∃ e ∈ t.segments, ∃ s' ∈ e.2.synapses,
        s'.state = SynapseState.Ghost ∧ s'.source_neuron_id ∈ pattern ∧
          pr = (e.2.id, s'.id)) := by
  refine ⟨?_, ?_, ?_, ?_, ?_, ?_, ?_, ?_⟩
  · simp only [Synapse.update_activity]
    split_ifs <;> simp_all
  · simp [Synapse.strengthen, hg]
  · simp only [Synapse.weaken]
    split_ifs <;> simp_all
  · simp only [Synapse.check_inactivity]
    split_ifs <;> simp_all
  · simp only [Synapse.convert_to_ghost]
    rw [if_neg (by rw [hg]; simp)]
    exact hg
  · cases hlk : lookupId t.segments segment_id with
    | none => simp [DendriticTree.reactivate_synapse, hlk]
    | some seg =>
      by_cases hr : (DendriticTree.reactivateInList synapse_id seg.synapses).2 = true
      · constructor
        · intro _
          exact ⟨seg, rfl, (reactivateInList_true_iff synapse_id seg.synapses).mp hr⟩
        · intro _
          simp [DendriticTree.reactivate_synapse, hlk, hr]
      · constructor
        · intro hcontra
          exfalso
          simp [DendriticTree.reactivate_synapse, hlk, hr] at hcontra
        · rintro ⟨seg', hseg', hex⟩
          exfalso
          injection hseg' with hh
          subst hh
          exact hr ((reactivateInList_true_iff synapse_id seg.synapses).mpr hex)
  · intro hsucc
    cases hlk : lookupId t.segments segment_id with
    | none => simp [DendriticTree.reactivate_synapse, hlk] at hsucc
    | some seg =>
      by_cases hr : (DendriticTree.reactivateInList synapse_id seg.synapses).2 = true
      · simp only [DendriticTree.reactivate_synapse, hlk, if_pos hr]
        refine ⟨{ seg with synapses :=
            (DendriticTree.reactivateInList synapse_id seg.synapses).1 }, ?_, ?_⟩
        · show lookupId (updateId t.segments segment_id _) segment_id = _
          rw [lookupId_updateId, hlk]
          rfl
        · exact reactivateInList_found synapse_id seg.synapses hr
      · simp [DendriticTree.reactivate_synapse, hlk, if_neg hr] at hsucc
  · intro pr
    unfold DendriticTree.find_reactivatable_synapses
    rw [mem_foldl_append]
    simp only [List.mem_map, List.mem_filter, List.not_mem_nil, false_or,
      decide_eq_true_eq]
    constructor
    · rintro ⟨e, he, s', ⟨hs', hprop⟩, hpr⟩
      exact ⟨e, he, s', hs', hprop.1, hprop.2, hpr.symm⟩
    · rintro ⟨e, he, s', hs', h1, h2, hpr⟩
      exact ⟨e, he, s', ⟨hs', h1, h2⟩, hpr.symm⟩

/-- C7 witness: the amended theorem on the concrete Ghost synapse and tree
of the counterexample (success, weight reset to `0.3`, state `Active`). -/
theorem c7_amended_witness :
    synC7.state = SynapseState.Ghost ∧
    ((treeC7.reactivate_synapse 0 7).2 = true →
      ∃ seg, lookupId (treeC7.reactivate_synapse 0 7).1.segments 0 = some seg ∧
        ∃ s' ∈ seg.synapses, s'.id = 7 ∧
          s'.state = SynapseState.Active ∧ s'.weight = 0.3) := by
  have hg : synC7.state = SynapseState.Ghost := rfl
  exact ⟨hg, (c7_amended env0 synC7 0 0 0 treeC7 0 7 [] hg).2.2.2.2.2.2.1⟩

/-- The observations the determinism claim compares: segment count, the
segment positions, and all synapse weights. -/
def treeObs (t : DendriticTree) : Nat × List Position × List ℚ :=
  (t.segments.length,
   t.segments.map (fun e => e.2.position),
   (t.segments.map (fun e => e.2.synapses.map (fun s => s.weight))).flatten)

/-- The observation trajectory of a tree under a sequence of
`(factors, time_step, activity)` growth calls: the observations after
every step. -/
def trajObs (env : Env) (t : DendriticTree)
    (inputs : List (List GrowthFactor × ℚ × ℚ)) :
    List (Nat × List Position × List ℚ) :=
  match inputs with
  | [] => []
  | (f, ts, a) :: rest =>
    let t' := (DendriticTree.grow env t f ts a).1
    treeObs t' :: trajObs env t' rest

/-- Replace a tree's (growth-irrelevant) `neuron_id`. -/
def setNid (t : DendriticTree) (n : Nat) : DendriticTree :=
  { t with neuron_id := n }

/-- `growAfterGate` never reads `neuron_id`: on a tree differing only in
`neuron_id`, the result differs only in `neuron_id`. -/
theorem growAfterGate_nid (env : Env) (f : List GrowthFactor)
    (n1 n2 : Nat) (sg : List (Nat × DendriticSegment)) (rt : List Nat)
    (e g el ti : ℚ) (c : Nat) (rs : Nat) (plc : List (Nat × ℚ)) (sig nx : Nat)
    (pm : List Nat → List Nat) :
    DendriticTree.growAfterGate env ⟨n1, sg, rt, e, g, el, ti, c, rs, plc, sig, nx, pm⟩ f =
      (setNid (DendriticTree.growAfterGate env ⟨n2, sg, rt, e, g, el, ti, c, rs, plc, sig, nx, pm⟩ f).1 n1,
       (DendriticTree.growAfterGate env ⟨n2, sg, rt, e, g, el, ti, c, rs, plc, sig, nx, pm⟩ f).2) := by
  have hsel : DendriticTree.select_growth_segment env
      (⟨n1, sg, rt, e, g, el, ti, c, rs, plc, sig, nx, pm⟩ : DendriticTree) =
      DendriticTree.select_growth_segment env
        ⟨n2, sg, rt, e, g, el, ti, c, rs, plc, sig, nx, pm⟩ := rfl
  simp only [DendriticTree.growAfterGate, hsel]
  cases DendriticTree.select_growth_segment env
      (⟨n2, sg, rt, e, g, el, ti, c, rs, plc, sig, nx, pm⟩ : DendriticTree) with
  | none => rfl
  | some sid =>
    dsimp only
    cases lookupId sg sid with
    | none => rfl
    | some parent =>
      dsimp only
      by_cases hc : e < dendC.ENERGY_PER_GROWTH_UNIT * env.powf 1.1 (parent.branch_depth : ℚ)
      · rw [if_pos hc, if_pos hc]
        rfl
      · rw [if_neg hc, if_neg hc]
        rfl

/-- `DendriticTree::grow` never reads `neuron_id`. -/
theorem grow_nid (env : Env) (f : List GrowthFactor) (ts a : ℚ)
    (n1 n2 : Nat) (sg : List (Nat × DendriticSegment)) (rt : List Nat)
    (e g el ti : ℚ) (c : Nat) (rs : Nat) (plc : List (Nat × ℚ)) (sig nx : Nat)
    (pm : List Nat → List Nat) :
    DendriticTree.grow env ⟨n1, sg, rt, e, g, el, ti, c, rs, plc, sig, nx, pm⟩ f ts a =
      (setNid (DendriticTree.grow env ⟨n2, sg, rt, e, g, el, ti, c, rs, plc, sig, nx, pm⟩ f ts a).1 n1,
       (DendriticTree.grow env ⟨n2, sg, rt, e, g, el, ti, c, rs, plc, sig, nx, pm⟩ f ts a).2) := by
  simp only [DendriticTree.grow]
  by_cases h1 : e < dendC.MIN_ENERGY_THRESHOLD
  · rw [if_pos h1, if_pos h1]
    rfl
  · rw [if_neg h1, if_neg h1]
    have hgs : DendriticTree.gateSeed
        (⟨n1, sg, rt, e, ratMin (0.5 + a) 2, el, ti + ts, c, rs, plc, sig, nx, pm⟩ : DendriticTree) =
        DendriticTree.gateSeed
          ⟨n2, sg, rt, e, ratMin (0.5 + a) 2, el, ti + ts, c, rs, plc, sig, nx, pm⟩ := rfl
    have hbp : DendriticTree.branchProb
        (⟨n1, sg, rt, e, ratMin (0.5 + a) 2, el, ti + ts, c, rs, plc, sig, nx, pm⟩ : DendriticTree) =
        DendriticTree.branchProb
          ⟨n2, sg, rt, e, ratMin (0.5 + a) 2, el, ti + ts, c, rs, plc, sig, nx, pm⟩ := rfl
    rw [hgs, hbp]
    by_cases h2 : env.stream (DendriticTree.gateSeed
        (⟨n2, sg, rt, e, ratMin (0.5 + a) 2, el, ti + ts, c, rs, plc, sig, nx, pm⟩ : DendriticTree)) 0 <
        DendriticTree.branchProb
          (⟨n2, sg, rt, e, ratMin (0.5 + a) 2, el, ti + ts, c, rs, plc, sig, nx, pm⟩ : DendriticTree)
    · rw [if_pos h2, if_pos h2]
      rfl
    · rw [if_neg h2, if_neg h2]
      exact growAfterGate_nid env f n1 n2 sg rt e (ratMin (0.5 + a) 2) el (ti + ts) c rs plc sig nx pm

/-- `grow` on a tree differing only in `neuron_id`. -/
theorem grow_setNid (env : Env) (t : DendriticTree) (f : List GrowthFactor)
    (ts a : ℚ) (n : Nat) :
    DendriticTree.grow env (setNid t n) f ts a =
      (setNid (DendriticTree.grow env t f ts a).1 n,
       (DendriticTree.grow env t f ts a).2) := by
  obtain ⟨m, sg, rt, e, g, el, ti, c, rs, plc, sig, nx, pm⟩ := t
  exact grow_nid env f ts a n m sg rt e g el ti c rs plc sig nx pm

/-- The observation trajectory ignores `neuron_id`. -/
theorem trajObs_setNid (env : Env) (inputs : List (List GrowthFactor × ℚ × ℚ)) :
    ∀ (t : DendriticTree) (n : Nat),
      trajObs env (setNid t n) inputs = trajObs env t inputs := by
  induction inputs with
  | nil => intro t n; rfl
  | cons x rest ih =>
    intro t n
    obtain ⟨f, ts, a⟩ := x
    simp only [trajObs]
    rw [grow_setNid]
    exact congrArg₂ List.cons rfl (ih _ n)

/-- The `initialize` loop ignores `neuron_id`. -/
theorem foldl_initStep_setNid (env : Env) (count : Nat) :
    ∀ (l : List Nat) (t : DendriticTree) (n : Nat),
      l.foldl (DendriticTree.initStep env count) (setNid t n) =
        setNid (l.foldl (DendriticTree.initStep env count) t) n := by
  intro l
  induction l with
  | nil => intro t n; rfl
  | cons i rest ih =>
    intro t n
    show rest.foldl _ (DendriticTree.initStep env count (setNid t n) i) = _
    rw [show DendriticTree.initStep env count (setNid t n) i =
      setNid (DendriticTree.initStep env count t i) n from rfl]
    exact ih _ n

/-- `initialize` ignores `neuron_id`. -/
theorem initTree_setNid (env : Env) (t : DendriticTree) (count : Nat) (n : Nat) :
    DendriticTree.initTree env (setNid t n) count =
      setNid (DendriticTree.initTree env t count) n := by
  unfold DendriticTree.initTree
  rw [foldl_initStep_setNid]
  rfl

/-- C1 (amended): two `DendriticTree` instances constructed with the same
seed, the same initial energy *and the same segment-table enumeration
order* (`perm` — the only construction input besides the seed that the
growth path reads; it models the instance-specific `HashMap`/`Uuid`
iteration order, which in the source is **not** derived from the seed),
then given the same `initialize(count)` and fed an identical sequence of
`(factors, time_step, activity)` calls, have identical segment counts,
segment positions and synapse weights after every step — even when their
`neuron_id`s differ. -/
theorem c1_amended (env : Env) (nid1 nid2 : Nat) (e : ℚ) (seed : Nat)
    (perm : List Nat → List Nat) (count : Nat)
    (inputs : List (List GrowthFactor × ℚ × ℚ)) :
    trajObs env (DendriticTree.initTree env
      (DendriticTree.with_seed nid1 e seed perm) count) inputs =
    trajObs env (DendriticTree.initTree env
      (DendriticTree.with_seed nid2 e seed perm) count) inputs := by
  rw [show DendriticTree.with_seed nid1 e seed perm =
    setNid (DendriticTree.with_seed nid2 e seed perm) nid1 from rfl]
  rw [initTree_setNid, trajObs_setNid]

/-- An `Env` for the C1 computation: constant unit draws `1/2`, constant
index draw `0`, `sqrt := 1`, `powf := 1`, and a `cos` that separates the
two root angles. -/
def envC1 : Env :=
  { sqrt := fun _ => 1, powf := fun _ _ => 1, exp := fun _ => 0, sin := fun _ => 0
    cos := fun q => if q = 0 then 1 else -1, log2 := fun _ => 0
    stream := fun _ _ => 1/2, streamIdx := fun _ _ => 0 }

/-- C1 counterexample: two trees constructed with the *same seed* (0), the
same energy and the same `initialize(2)` call, whose segment tables merely
enumerate in different orders (`id` versus `reverse` — in the source this
order comes from the random `Uuid` keys and the per-instance hasher state,
not from the seed), pick different parents at the first branching step and
end with *different segment positions*: the growth trajectory is not a
function of the seed alone. -/
theorem c1_counterexample :
    trajObs envC1 (DendriticTree.initTree envC1
        (DendriticTree.with_seed 0 100 0 (fun l => l)) 2) [([], 1/2, 4/5)] ≠
    trajObs envC1 (DendriticTree.initTree envC1
        (DendriticTree.with_seed 0 100 0 (fun l => List.reverse l)) 2) [([], 1/2, 4/5)] := by
  norm_num [trajObs, treeObs, DendriticTree.initTree, DendriticTree.initStep,
    DendriticTree.with_seed, DendriticTree.new, DendriticTree.invalidate_cache,
    DendriticTree.grow, DendriticTree.growAfterGate, DendriticTree.branchProb,
    DendriticTree.select_growth_segment, DendriticTree.segWeight,
    DendriticTree.calculate_growth_direction, DendriticTree.add_direction_noise,
    DendriticSegment.new, DendriticSegment.add_child,
    lookupId, updateId, envC1, piF32, ratMin, Rat.floor,
    dendC.MIN_ENERGY_THRESHOLD, dendC.BASE_BRANCHING_PROBABILITY,
    dendC.OPTIMAL_CONNECTION_COUNT, dendC.MAX_BRANCHING_DEPTH,
    dendC.ENERGY_PER_GROWTH_UNIT,
    List.range_succ, List.foldl_cons, List.foldl_nil, List.replicate]

/-- Decomposing a lookup in a cache extended by one entry at the back. -/
theorem lookupId_append {α : Type} (l : List (Nat × α)) (k : Nat) (w : α)
    (i : Nat) (v : α) (h : lookupId (l ++ [(k, w)]) i = some v) :
    lookupId l i = some v ∨ (i = k ∧ v = w) := by
  induction l with
  | nil =>
    simp only [List.nil_append, lookupId] at h
    by_cases hk : k = i
    · rw [if_pos hk] at h
      exact Or.inr ⟨hk.symm, (Option.some.inj h).symm⟩
    · rw [if_neg hk] at h
      cases h
  | cons e rest ih =>
    obtain ⟨j, s⟩ := e
    simp only [List.cons_append, lookupId] at h ⊢
    by_cases hj : j = i
    · rw [if_pos hj] at h ⊢
      exact Or.inl h
    · rw [if_neg hj] at h ⊢
      exact ih h

/-- The cache invariant of C6: every cached entry equals the fresh
recursive path-length computation under the current topology. -/
def CacheOK (env : Env) (t : DendriticTree) : Prop :=
  ∀ i v, lookupId t.path_length_cache i = some v →
    v = DendriticTree.pathLenSpec env t.segments i

/-- Memoisation correctness of `get_path_length`: under the cache
invariant, the memoised value is the fresh recursive computation, the
segment table is untouched, and the invariant is preserved. -/
theorem gpl_correct (env : Env) : ∀ (sid : Nat) (t : DendriticTree),
    CacheOK env t →
    (DendriticTree.get_path_length env t sid).1 =
      DendriticTree.pathLenSpec env t.segments sid ∧
    (DendriticTree.get_path_length env t sid).2.segments = t.segments ∧
    CacheOK env (DendriticTree.get_path_length env t sid).2 := by
  intro sid
  induction sid using Nat.strong_induction_on with
  | _ sid ih =>
    intro t hC
    rw [DendriticTree.get_path_length]
    cases hc : lookupId t.path_length_cache sid with
    | some v =>
      simp only [hc]
      exact ⟨hC sid v hc, by trivial, hC⟩
    | none =>
      simp only [hc]
      cases hs : lookupId t.segments sid with
      | none =>
        simp only [hs]
        refine ⟨?_, by trivial, ?_⟩
        · rw [DendriticTree.pathLenSpec, hs]
        · exact hC
      | some seg =>
        simp only [hs]
        cases hp : seg.parent_id with
        | none =>
          simp only [hp]
          refine ⟨?_, by trivial, ?_⟩
          · rw [DendriticTree.pathLenSpec, hs]
            simp only [hp]
          · intro i v hlk
            dsimp only at hlk ⊢
            rcases lookupId_append _ _ _ _ _ hlk with hold | ⟨rfl, rfl⟩
            · exact hC i v hold
            · rw [DendriticTree.pathLenSpec, hs]
              simp only [hp]
        | some p =>
          by_cases hlt : p < sid
          · simp only [hp]
            rw [dif_pos hlt]
            obtain ⟨ih1, ih2, ih3⟩ := ih p hlt t hC
            refine ⟨?_, by dsimp only; exact ih2, ?_⟩
            · dsimp only
              rw [DendriticTree.pathLenSpec, hs]
              simp only [hp]
              rw [dif_pos hlt, ih1]
            · intro i v hlk
              dsimp only at hlk ⊢
              rcases lookupId_append _ _ _ _ _ hlk with hold | ⟨rfl, rfl⟩
              · have hv := ih3 i v hold
                rw [ih2] at hv
                rw [ih2]
                exact hv
              · rw [ih2, ih1]
                conv_rhs => rw [DendriticTree.pathLenSpec]
                simp only [hs, hp]
                rw [dif_pos hlt]
          · simp only [hp]
            rw [dif_neg hlt]
            refine ⟨?_, by trivial, ?_⟩
            · rw [DendriticTree.pathLenSpec, hs]
              simp only [hp]
              rw [dif_neg hlt]
            · intro i v hlk
              dsimp only at hlk ⊢
              rcases lookupId_append _ _ _ _ _ hlk with hold | ⟨rfl, rfl⟩
              · exact hC i v hold
              · rw [DendriticTree.pathLenSpec, hs]
                simp only [hp]
                rw [dif_neg hlt]

/-- The success path of `growAfterGate` clears the path-length cache and
bumps the tree signature. -/
theorem growAfterGate_true_cache (env : Env) (t : DendriticTree)
    (f : List GrowthFactor)
    (h : (DendriticTree.growAfterGate env t f).2 = true) :
    (DendriticTree.growAfterGate env t f).1.path_length_cache = [] ∧
    (DendriticTree.growAfterGate env t f).1.tree_signature =
      wrapAdd t.tree_signature 1 := by
  cases hsel : DendriticTree.select_growth_segment env t with
  | none => simp [DendriticTree.growAfterGate, hsel] at h
  | some sid =>
    cases hlk : lookupId t.segments sid with
    | none => simp [DendriticTree.growAfterGate, hsel, hlk] at h
    | some parent =>
      by_cases hc : t.energy <
          dendC.ENERGY_PER_GROWTH_UNIT * env.powf 1.1 (parent.branch_depth : ℚ)
      · simp [DendriticTree.growAfterGate, hsel, hlk, hc] at h
      · simp only [DendriticTree.growAfterGate, hsel, hlk, if_neg hc]
        exact ⟨rfl, rfl⟩

/-- A successful `grow` clears the path-length cache and bumps the tree
signature. -/
theorem grow_true_cache (env : Env) (t : DendriticTree) (f : List GrowthFactor)
    (ts a : ℚ) (h : (DendriticTree.grow env t f ts a).2 = true) :
    (DendriticTree.grow env t f ts a).1.path_length_cache = [] ∧
    (DendriticTree.grow env t f ts a).1.tree_signature =
      wrapAdd t.tree_signature 1 := by
  simp only [DendriticTree.grow] at h ⊢
  split_ifs at h ⊢
  all_goals
    first
      | exact Bool.noConfusion h
      | exact growAfterGate_true_cache env _ f h

/-- `initialize` leaves an empty path-length cache. -/
theorem initTree_cache (env : Env) (t : DendriticTree) (n : Nat) :
    (DendriticTree.initTree env t n).path_length_cache = [] := rfl

/-- The `initialize` loop does not touch the tree signature. -/
theorem foldl_initStep_sig (env : Env) (c : Nat) :
    ∀ (l : List Nat) (t : DendriticTree),
      (l.foldl (DendriticTree.initStep env c) t).tree_signature =
        t.tree_signature := by
  intro l
  induction l with
  | nil => intro t; rfl
  | cons i rest ih =>
    intro t
    show (rest.foldl _ (DendriticTree.initStep env c t i)).tree_signature = _
    rw [ih]
    rfl

/-- `initialize` bumps the tree signature by one (wrapping). -/
theorem initTree_sig (env : Env) (t : DendriticTree) (n : Nat) :
    (DendriticTree.initTree env t n).tree_signature =
      wrapAdd t.tree_signature 1 := by
  show wrapAdd ((List.range n).foldl (DendriticTree.initStep env n) t).tree_signature 1 =
    wrapAdd t.tree_signature 1
  rw [foldl_initStep_sig]

/-- One operation of the sequences C6 quantifies over: an `initialize`
call, a `grow` call, or a `get_path_length` read. -/
inductive TreeOp where
  | initOp (n : Nat)
  | growOp (factors : List GrowthFactor) (ts act : ℚ)
  | pathOp (sid : Nat)

/-- Apply one operation to a tree (keeping only the state). -/
def applyTreeOp (env : Env) (t : DendriticTree) : TreeOp → DendriticTree
  | .initOp n => DendriticTree.initTree env t n
  | .growOp f ts a => (DendriticTree.grow env t f ts a).1
  | .pathOp sid => (DendriticTree.get_path_length env t sid).2

/-- Apply a sequence of operations. -/
def runTreeOps (env : Env) (t : DendriticTree) (ops : List TreeOp) : DendriticTree :=
  ops.foldl (applyTreeOp env) t

/-- Every operation preserves the cache invariant. -/
theorem cacheOK_applyTreeOp (env : Env) (t : DendriticTree) (op : TreeOp)
    (h : CacheOK env t) : CacheOK env (applyTreeOp env t op) := by
  cases op with
  | initOp n =>
    intro i v hlk
    dsimp only [applyTreeOp] at hlk
    rw [initTree_cache] at hlk
    exact absurd hlk (by simp [lookupId])
  | growOp f ts a =>
    by_cases hb : (DendriticTree.grow env t f ts a).2 = true
    · intro i v hlk
      dsimp only [applyTreeOp] at hlk
      rw [(grow_true_cache env t f ts a hb).1] at hlk
      exact absurd hlk (by simp [lookupId])
    · have hb' : (DendriticTree.grow env t f ts a).2 = false := by
        cases hgb : (DendriticTree.grow env t f ts a).2
        · rfl
        · exact absurd hgb hb
      obtain ⟨_, hseg, _, hcache, _⟩ := grow_false_frame env t f ts a hb'
      intro i v hlk
      dsimp only [applyTreeOp] at hlk ⊢
      rw [hcache] at hlk
      rw [hseg]
      exact h i v hlk
  | pathOp sid =>
    exact (gpl_correct env sid t h).2.2

/-- Sequences of operations preserve the cache invariant. -/
theorem cacheOK_runTreeOps (env : Env) :
    ∀ (ops : List TreeOp) (t : DendriticTree), CacheOK env t →
      CacheOK env (runTreeOps env t ops) := by
  intro ops
  induction ops with
  | nil => intro t h; exact h
  | cons op rest ih =>
    intro t h
    exact ih (applyTreeOp env t op) (cacheOK_applyTreeOp env t op h)

/-- A freshly constructed tree has an empty cache, so the invariant holds. -/
theorem cacheOK_with_seed (env : Env) (nid : Nat) (e : ℚ) (seed : Nat)
    (perm : List Nat → List Nat) :
    CacheOK env (DendriticTree.with_seed nid e seed perm) := by
  intro i v hlk
  exact absurd hlk (by simp [DendriticTree.with_seed, DendriticTree.new, lookupId])

/-- C6: after any sequence of `initialize`, `grow` and `get_path_length`
operations from a fresh tree, `get_path_length(id)` returns exactly the
fresh recursive computation (own electrotonic length
`length / sqrt(0.5 * diameter * Rm / Ra)` plus the parent's path length,
no parent contribution for roots) under the current topology for every id;
and every structural mutation (`initialize`, successful `grow`) clears the
path-length cache and bumps `tree_signature` before any subsequent read. -/
theorem c6_theorem (env : Env) (nid : Nat) (e : ℚ) (seed : Nat)
    (perm : List Nat → List Nat) (ops : List TreeOp) (sid : Nat) :
    (DendriticTree.get_path_length env
        (runTreeOps env (DendriticTree.with_seed nid e seed perm) ops) sid).1 =
      DendriticTree.pathLenSpec env
        (runTreeOps env (DendriticTree.with_seed nid e seed perm) ops).segments sid ∧
    (∀ n, (DendriticTree.initTree env
          (runTreeOps env (DendriticTree.with_seed nid e seed perm) ops) n).path_length_cache = [] ∧
      (DendriticTree.initTree env
          (runTreeOps env (DendriticTree.with_seed nid e seed perm) ops) n).tree_signature =
        wrapAdd (runTreeOps env (DendriticTree.with_seed nid e seed perm) ops).tree_signature 1) ∧
    (∀ (f : List GrowthFactor) (ts a : ℚ),
      (DendriticTree.grow env
          (runTreeOps env (DendriticTree.with_seed nid e seed perm) ops) f ts a).2 = true →
      (DendriticTree.grow env
          (runTreeOps env (DendriticTree.with_seed nid e seed perm) ops) f ts a).1.path_length_cache = [] ∧
      (DendriticTree.grow env
          (runTreeOps env (DendriticTree.with_seed nid e seed perm) ops) f ts a).1.tree_signature =
        wrapAdd (runTreeOps env (DendriticTree.with_seed nid e seed perm) ops).tree_signature 1) := by
  have hC := cacheOK_runTreeOps env ops _ (cacheOK_with_seed env nid e seed perm)
  exact ⟨(gpl_correct env sid _ hC).1,
    fun n => ⟨initTree_cache env _ n, initTree_sig env _ n⟩,
    fun f ts a hb => grow_true_cache env _ f ts a hb⟩
